import Mathlib

/-!
MCP23S17 SPI port expander driver: registry, bus framing, dispatch and teardown.

A shallow embedding of `ExpansionDevice/source/MCP23S17.cpp` and `GPIOExpander/MCP23S17.h`.

* `char` values are kept as their byte `0..255` (`char` is unsigned in the ARM ABI the mbed
  targets use); a conversion of an `int` to `char` is `toChar`.
* `int` arguments (masks) and the enum values `ExpPortName` and `PinName` are `Int`; a value
  of `ExpPinName`, whose enumerators are the pins 0 to 7, is a `Nat`.
* Everything the driver does to its collaborators (mutex, chip-select, SPI peripheral, interrupt
  line, monitor thread, user callbacks) and every store to one of its `volatile` flags is
  appended, in program order, to the `trace` of the driver state.
* What the SPI peripheral returns from an exchange is given by an `SpiSlave`, a function of the
  trace up to and including that exchange.
* A `Callback<void(uint32_t,gpio_irq_event)>` is `none` (empty, tests false) or `some h`, `h`
  naming the callable; calling it is the trace event `Event.call h id event`.
* An operation that uses an iterator which was never assigned, or that ends in `MBED_ERROR`,
  has no result: it yields a `Fault`.
-/

set_option autoImplicit false

/-! ## Declarations of ExpanderInterface.h and of mbed used by the driver -/

/-- Modelled from the spec: the enum `ExpPortName` of ExpanderInterface.h, which is not among
the sources, as the integer value of its enumerator ("port offset 0 = A, 1 = B"). -/
abbrev ExpPortName := Int

/-- Modelled from the spec: enumerator of `ExpPortName`, port offset 0. -/
def EXPPORT_A : ExpPortName := 0

/-- Modelled from the spec: enumerator of `ExpPortName`, port offset 1. -/
def EXPPORT_B : ExpPortName := 1

/-- Modelled from the spec: the enum `ExpPinName` of ExpanderInterface.h, which is not among
the sources, as the integer value of its enumerator ("Pin: integer 0..width-1 within a
port"): its enumerators are the pins 0 to 7, so a value of the enum is not negative. -/
abbrev ExpPinName := Nat

/-- Modelled from the spec: enumerator of `ExpPinName`, the highest pin of a port
("`pin` is within `[0, 7]`"). -/
def EXPPIN_7 : ExpPinName := 7

/-- Modelled from the spec: the enum `ExpPortWidth` of ExpanderInterface.h, which is not among
the sources, as the number of pins of a port. -/
abbrev ExpPortWidth := Nat

/-- Modelled from the spec: enumerator of `ExpPortWidth` ("commonly 8"), the constructor's
default. -/
def PW_8 : ExpPortWidth := 8

/-- Modelled from the spec: the enum `ExpError` of ExpanderInterface.h, which is not among the
sources (Ok, InvalidMask, NotInitialized). -/
inductive ExpError where
  | ExpError_OK
  | ExpError_MASK
  | ExpError_NOTINITIALIZED
  deriving DecidableEq

open ExpError

/-- The mbed enum `gpio_irq_event`. -/
inductive gpio_irq_event where
  | IRQ_NONE
  | IRQ_RISE
  | IRQ_FALL
  deriving DecidableEq

open gpio_irq_event

/-- The mbed enum `PinMode`. -/
inductive PinMode where
  | PullNone
  | PullUp
  | PullDown
  | OpenDrain
  deriving DecidableEq

open PinMode

/-- The mbed type `PinName`, as the integer value of the enumerator. -/
abbrev PinName := Int

/-- The mbed enumerator `NC` (not connected), `(int)0xFFFFFFFF`. -/
def NC : PinName := -1

/-- The callable held by a binding: `none` is the empty callback. -/
abbrev Callback := Option Nat

/-! ## Register addresses and control bits (MCP23S17.h) -/

def IODIR : Nat := 0x00
def IPOL : Nat := 0x02
def GPINTEN : Nat := 0x04
def DEFVAL : Nat := 0x06
def INTCON : Nat := 0x08
def IOCON : Nat := 0x0A
def GPPU : Nat := 0x0C
def INTF : Nat := 0x0E
def INTCAP : Nat := 0x10
def GPIO : Nat := 0x12
def OLAT : Nat := 0x14

def IOCON_BANK : Nat := 0x80
def IOCON_MIRROR : Nat := 0x40
def IOCON_BYTE_MODE : Nat := 0x20
def IOCON_HAEN : Nat := 0x08
def IOCON_ODR : Nat := 0x04
def IOCON_INT : Nat := 0x02

/-- Conversion of an `int` to `char`, as the byte kept. -/
def toChar (v : Int) : Nat := (v % 256).toNat

/-! ## Data model -/

/-- The struct `expGPIO_t`: one binding of the interrupt list. -/
structure expGPIO_t where
  port : ExpPortName
  pin : ExpPinName
  func : Callback
  id : Nat
  deriving DecidableEq

/-- The struct `expObj_t`: the configuration of one driver instance. -/
structure expObj_t where
  id : Nat
  opcode : Nat
  portWidth : ExpPortWidth
  intConfigured : Bool
  interrupt : PinName
  deriving DecidableEq

/-- What the driver does to its collaborators and to its volatile flags. -/
inductive Event where
  /-- `_spi->frequency(hz)` -/
  | spiFrequency (hz : Nat)
  /-- `_spi->format(bits, mode)` -/
  | spiFormat (bits mode : Nat)
  /-- `_mutex.lock()` -/
  | mutexLock
  /-- `_mutex.unlock()` -/
  | mutexUnlock
  /-- `_cs = level` -/
  | cs (level : Nat)
  /-- `_spi->write(value)` -/
  | spiWrite (value : Nat)
  /-- `_int.rise(callback(this, &MCP23S17::interruptControl))` for `true`,
  `_int.rise(NULL)` for `false` -/
  | intRise (attached : Bool)
  /-- `it->func(it->id, event)` -/
  | call (func : Nat) (id : Nat) (event : gpio_irq_event)
  /-- `_interrupt = b` -/
  | storeInterrupt (b : Bool)
  /-- `_threadrunning = b` -/
  | storeThreadrunning (b : Bool)
  /-- `_intThread.start(callback(this, &MCP23S17::_threadControl))` -/
  | threadStart
  /-- `_intThread.join()` -/
  | threadJoin
  deriving DecidableEq

/-- The value `_spi->write` returns, given the trace up to and including that exchange. -/
abbrev SpiSlave := List Event → Nat

/-- The members of the class `MCP23S17`, and the trace of what the instance has done. -/
structure MCP23S17 where
  threadrunning : Bool
  interrupt : Bool
  config : expObj_t
  intList : List expGPIO_t
  trace : List Event
  deriving DecidableEq

/-- Why an operation has no result. -/
inductive Fault where
  /-- an iterator that stands at no element of the list and is not `end()` (one that was
  never assigned) is compared or dereferenced: undefined behaviour -/
  | undefinedBehaviour
  /-- `MBED_ERROR` halts the system -/
  | mbedError
  deriving DecidableEq

/-- A position in the interrupt list, as `std::list<expGPIO_t>::iterator`. -/
inductive ListIter where
  /-- the iterator stands at the element of this index -/
  | node (index : Nat)
  /-- the iterator is `_intList.end()` -/
  | endIt
  /-- the iterator was declared and never assigned -/
  | singular
  deriving DecidableEq

namespace MCP23S17

/-- Append one event to the trace. -/
def log (s : MCP23S17) (e : Event) : MCP23S17 :=
  { s with trace := s.trace ++ [e] }

/-- `MCP23S17::_write(char address, char data)`. -/
def _write (s : MCP23S17) (address data : Nat) : MCP23S17 :=
  let s := s.log Event.mutexLock
  let s := s.log (Event.cs 0)
  let s := s.log (Event.spiWrite s.config.opcode)
  let s := s.log (Event.spiWrite address)
  let s := s.log (Event.spiWrite data)
  let s := s.log (Event.cs 1)
  s.log Event.mutexUnlock

/-- `MCP23S17::_read(char address)`: the byte read and the state after. -/
def _read (spi : SpiSlave) (s : MCP23S17) (address : Nat) : Nat × MCP23S17 :=
  let s := s.log Event.mutexLock
  let s := s.log (Event.cs 0)
  let s := s.log (Event.spiWrite (s.config.opcode ||| 1))
  let s := s.log (Event.spiWrite address)
  let s := s.log (Event.spiWrite 0)
  let result := spi s.trace % 256
  let s := s.log (Event.cs 1)
  let s := s.log Event.mutexUnlock
  (result, s)

/-- `MCP23S17::_enableCallback(bool state)`. -/
def _enableCallback (s : MCP23S17) (state : Bool) : MCP23S17 :=
  if s.config.interrupt ≠ -1 then
    if state then s.log (Event.intRise true) else s.log (Event.intRise false)
  else s

/-- The loop of `_getExpGPIO`: from the element of index `i` on, stop at the first element
whose pin and port are the ones looked for; `_intList.end()` when the list runs out. -/
def findFrom (port : ExpPortName) (pin : ExpPinName) : List expGPIO_t → Nat → ListIter
  | [], _ => ListIter.endIt
  | e :: rest, i =>
    if e.pin = pin ∧ e.port = port then ListIter.node i else findFrom port pin rest (i + 1)

/-- `MCP23S17::_getExpGPIO(ExpPortName port, ExpPinName pin)`, on the interrupt list: the
iterator is assigned only when the list is not empty. -/
def _getExpGPIO (l : List expGPIO_t) (port : ExpPortName) (pin : ExpPinName) : ListIter :=
  if !l.isEmpty then findFrom port pin l 0 else ListIter.singular

/-- `MCP23S17::getPortWidth()`. -/
def getPortWidth (s : MCP23S17) : ExpPortWidth := s.config.portWidth

/-- `MCP23S17::getDirection(ExpPortName port, int *data)`: the error code, `*data` and the
state after. -/
def getDirection (spi : SpiSlave) (s : MCP23S17) (port : ExpPortName) (_data : Int) :
    ExpError × Int × MCP23S17 :=
  let r := s._read spi ((IODIR ||| toChar port) % 256)
  (ExpError_OK, (r.1 : Int), r.2)

/-- `MCP23S17::setDirection(ExpPortName port, int directionMask)`. -/
def setDirection (s : MCP23S17) (port : ExpPortName) (directionMask : Int) :
    ExpError × MCP23S17 :=
  if directionMask > 0xFF then (ExpError_MASK, s)
  else (ExpError_OK, s._write ((IODIR ||| toChar port) % 256) (toChar directionMask))

/-- `MCP23S17::getConfigureMode(ExpPortName port, PinMode mode, int *data)`. -/
def getConfigureMode (spi : SpiSlave) (s : MCP23S17) (port : ExpPortName) (mode : PinMode)
    (data : Int) : ExpError × Int × MCP23S17 :=
  if mode ≠ PullUp then (ExpError_MASK, data, s)
  else
    let r := s._read spi ((GPPU ||| toChar port) % 256)
    (ExpError_OK, (r.1 : Int), r.2)

/-- `MCP23S17::setConfigureMode(ExpPortName port, PinMode mode, int pullupMask)`. -/
def setConfigureMode (s : MCP23S17) (port : ExpPortName) (mode : PinMode) (pullupMask : Int) :
    ExpError × MCP23S17 :=
  if pullupMask > 0xFF ∨ mode ≠ PullUp then (ExpError_MASK, s)
  else (ExpError_OK, s._write ((GPPU ||| toChar port) % 256) (toChar pullupMask))

/-- `MCP23S17::getInterruptEnable(ExpPortName port, int *data)`: the error code, `data[0]`,
`data[1]`, `data[2]` and the state after. -/
def getInterruptEnable (spi : SpiSlave) (s : MCP23S17) (port : ExpPortName) :
    ExpError × (Int × Int × Int) × MCP23S17 :=
  let s := s._enableCallback false
  let r0 := s._read spi ((INTCON ||| toChar port) % 256)
  let r1 := r0.2._read spi ((DEFVAL ||| toChar port) % 256)
  let r2 := r1.2._read spi ((GPINTEN ||| toChar port) % 256)
  let s := r2.2._enableCallback true
  (ExpError_OK, ((r0.1 : Int), (r1.1 : Int), (r2.1 : Int)), s)

/-- `MCP23S17::setInterruptEnable(ExpPortName port, int interruptsEnabledMask,
int risingEdgeMask, int fallingEdgeMask)`. -/
def setInterruptEnable (s : MCP23S17) (port : ExpPortName)
    (interruptsEnabledMask risingEdgeMask fallingEdgeMask : Int) : ExpError × MCP23S17 :=
  if interruptsEnabledMask > 0xFF ∨ risingEdgeMask > 0xFF ∨ fallingEdgeMask > 0xFF then
    (ExpError_MASK, s)
  else
    let s := s._enableCallback false
    let s := s._write ((INTCON ||| toChar port) % 256)
      ((toChar risingEdgeMask ^^^ toChar fallingEdgeMask) % 256)
    let s := s._write ((DEFVAL ||| toChar port) % 256) (toChar fallingEdgeMask)
    let s := s._write ((GPINTEN ||| toChar port) % 256) (toChar interruptsEnabledMask)
    let s := s._enableCallback true
    (ExpError_OK, s)

/-- `MCP23S17::interruptControl()`, the handler of the interrupt line. -/
def interruptControl (s : MCP23S17) : MCP23S17 :=
  { s.log (Event.storeInterrupt true) with interrupt := true }

/-- `MCP23S17::read(ExpPortName port, int *data)`. -/
def read (spi : SpiSlave) (s : MCP23S17) (port : ExpPortName) (_data : Int) :
    ExpError × Int × MCP23S17 :=
  let r := s._read spi (( GPIO ||| toChar port) % 256)
  (ExpError_OK, (r.1 : Int), r.2)

/-- `MCP23S17::write(ExpPortName port, int data)`. -/
def write (s : MCP23S17) (port : ExpPortName) (data : Int) : ExpError × MCP23S17 :=
  if data > 0xFF then (ExpError_MASK, s)
  else (ExpError_OK, s._write ((OLAT ||| toChar port) % 256) (toChar data))

/-- The test of `attach`, `isAttached` and `detach`:
`(pin <= EXPPIN_7) && (port == EXPPORT_A || port == EXPPORT_B)`. -/
def validArgs (port : ExpPortName) (pin : ExpPinName) : Prop :=
  pin ≤ EXPPIN_7 ∧ (port = EXPPORT_A ∨ port = EXPPORT_B)

instance (port : ExpPortName) (pin : ExpPinName) : Decidable (validArgs port pin) := by
  unfold validArgs; infer_instance

/-- The update branch of `attach`, `it->id = id; it->func = func;`, with `it` at the element
of index `i`. -/
def assignAt (id : Nat) (func : Callback) : List expGPIO_t → Nat → List expGPIO_t
  | [], _ => []
  | e :: rest, 0 => { e with id := id, func := func } :: rest
  | e :: rest, i + 1 => e :: assignAt id func rest i

/-- `MCP23S17::attach(ExpPortName port, ExpPinName pin, Callback func, uint32_t id)`. -/
def attach (s : MCP23S17) (port : ExpPortName) (pin : ExpPinName) (func : Callback)
    (id : Nat) : Except Fault (ExpError × MCP23S17) :=
  if ¬ validArgs port pin then Except.ok (ExpError_MASK, s)
  else
    match _getExpGPIO s.intList port pin with
    | ListIter.singular => Except.error Fault.undefinedBehaviour
    | ListIter.node i =>
      Except.ok (ExpError_OK, { s with intList := assignAt id func s.intList i })
    | ListIter.endIt =>
      Except.ok (ExpError_OK,
        { s with intList := s.intList ++ [{ id := id, port := port, pin := pin, func := func }] })

/-- `MCP23S17::isAttached(ExpPortName port, ExpPinName pin)`. -/
def isAttached (s : MCP23S17) (port : ExpPortName) (pin : ExpPinName) : Except Fault Bool :=
  if ¬ validArgs port pin then Except.error Fault.mbedError
  else
    match _getExpGPIO s.intList port pin with
    | ListIter.singular => Except.error Fault.undefinedBehaviour
    | ListIter.node _ => Except.ok true
    | ListIter.endIt => Except.ok false

/-- The loop of `detach`: erase the first element whose pin and port are the ones given. -/
def eraseFirst (port : ExpPortName) (pin : ExpPinName) : List expGPIO_t → List expGPIO_t
  | [] => []
  | e :: rest =>
    if e.pin = pin ∧ e.port = port then rest else e :: eraseFirst port pin rest

/-- `MCP23S17::detach(ExpPortName port, ExpPinName pin)`. -/
def detach (s : MCP23S17) (port : ExpPortName) (pin : ExpPinName) :
    Except Fault (ExpError × MCP23S17) :=
  if ¬ validArgs port pin then Except.ok (ExpError_MASK, s)
  else
    match s.isAttached port pin with
    | Except.error f => Except.error f
    | Except.ok true =>
      Except.ok (ExpError_OK, { s with intList := eraseFirst port pin s.intList })
    | Except.ok false => Except.ok (ExpError_NOTINITIALIZED, s)

/-- The inner loop of `_interruptControl`, with `n` iterations left from `j` on:
`for (j; j < portWidth; j++) if (intMask >> j & 0x01) { position = j; break; }`. -/
def bitScan (intMask : Nat) : Nat → Nat → Nat → Nat
  | 0, _, position => position
  | n + 1, j, position =>
    if (intMask >>> j) &&& 0x01 ≠ 0 then j else bitScan intMask n (j + 1) position

/-- The dispatch of `_interruptControl` once `position != 0`: look the binding up and call
its callback. -/
def dispatch (s : MCP23S17) (i : Nat) (position : Nat) (event : gpio_irq_event) :
    Except Fault MCP23S17 :=
  match _getExpGPIO s.intList (i : Int) position with
  | ListIter.singular => Except.error Fault.undefinedBehaviour
  | ListIter.endIt => Except.ok s
  | ListIter.node k =>
    match s.intList[k]? with
    | none => Except.error Fault.undefinedBehaviour
    | some e =>
      match e.func with
      | some f => Except.ok (s.log (Event.call f e.id event))
      | none => Except.ok s

/-- The outer loop of `_interruptControl` over the ports still to examine; `position` is
declared outside the loop and keeps its value from one port to the next. -/
def portLoop (spi : SpiSlave) : List Nat → Nat → MCP23S17 → Except Fault MCP23S17
  | [], _, s => Except.ok s
  | i :: rest, position, s =>
    let r := s._read spi ((INTF ||| i) % 256)
    let intMask := r.1
    if intMask ≠ 0 then
      let position := bitScan intMask s.config.portWidth 0 position
      let g := r.2._read spi (( GPIO ||| i) % 256)
      let gpio := g.1
      let event := if gpio &&& intMask ≠ 0 then IRQ_RISE else IRQ_FALL
      if position ≠ 0 then dispatch g.2 i position event
      else portLoop spi rest position g.2
    else portLoop spi rest position r.2

/-- `MCP23S17::_interruptControl()`: one dispatch pass, over the ports `EXPPORT_A` to
`EXPPORT_B`. -/
def _interruptControl (spi : SpiSlave) (s : MCP23S17) : Except Fault MCP23S17 :=
  if s.config.intConfigured = true then
    portLoop spi ((List.range (EXPPORT_B.toNat + 1)).drop EXPPORT_A.toNat) 0 s
  else Except.ok s

/-- `MCP23S17::_init()`. -/
def _init (s : MCP23S17) : MCP23S17 :=
  let s := { s with config := { s.config with intConfigured := true } }
  let s :=
    if s.config.interrupt ≠ -1 then
      s._write IOCON ((IOCON_BYTE_MODE ||| IOCON_MIRROR ||| IOCON_INT) % 256)
    else
      let s := s._write IOCON IOCON_BYTE_MODE
      { s with config := { s.config with intConfigured := false } }
  let s := s._enableCallback true
  let s := { s.log (Event.storeInterrupt false) with interrupt := false }
  let s := { s.log (Event.storeThreadrunning true) with threadrunning := true }
  s.log Event.threadStart

/-- `MCP23S17::_deinit()`. -/
def _deinit (s : MCP23S17) : MCP23S17 :=
  let s := (s.setDirection EXPPORT_A 0xFF).2
  let s := (s.setDirection EXPPORT_B 0xFF).2
  let s := s._enableCallback false
  let s :=
    if s.config.intConfigured = true then
      let s := (s.setInterruptEnable EXPPORT_A 0 0 0).2
      (s.setInterruptEnable EXPPORT_B 0 0 0).2
    else s
  let s := { s.log (Event.storeThreadrunning false) with threadrunning := false }
  s.log Event.threadJoin

/-- The constructor `MCP23S17::MCP23S17(spi, cs, writeOpcode, interrupt, pw)`. -/
def construct (writeOpcode : Nat) (interrupt : PinName) (pw : ExpPortWidth) : MCP23S17 :=
  let s : MCP23S17 :=
    { threadrunning := false, interrupt := false,
      config := { id := 0, portWidth := pw, opcode := writeOpcode % 256,
                  interrupt := interrupt, intConfigured := false },
      intList := [], trace := [] }
  let s := s.log (Event.spiFrequency 400000)
  let s := s.log (Event.spiFormat 8 0)
  s._init

end MCP23S17

/-! ## Vocabulary of the statements -/

/-- The events of one write transaction on the bus. -/
def writeFrame (opcode address data : Nat) : List Event :=
  [Event.mutexLock, Event.cs 0, Event.spiWrite opcode, Event.spiWrite address,
   Event.spiWrite data, Event.cs 1, Event.mutexUnlock]

/-- The events of one read transaction on the bus. -/
def readFrame (opcode address : Nat) : List Event :=
  [Event.mutexLock, Event.cs 0, Event.spiWrite (opcode ||| 1), Event.spiWrite address,
   Event.spiWrite 0, Event.cs 1, Event.mutexUnlock]

/-- The events of `_enableCallback(state)` on a device whose interrupt pin is `interrupt`. -/
def callbackEvents (interrupt : PinName) (state : Bool) : List Event :=
  if interrupt ≠ -1 then [Event.intRise state] else []

/-- The keys of a registry: the (port, pin) of each binding, in order. -/
def keys (l : List expGPIO_t) : List (ExpPortName × ExpPinName) :=
  l.map (fun e => (e.port, e.pin))

/-- At most one binding for each (port, pin). -/
def UniqueKeys (l : List expGPIO_t) : Prop := (keys l).Nodup

instance (l : List expGPIO_t) : Decidable (UniqueKeys l) := by
  unfold UniqueKeys; infer_instance

/-- The byte a read transaction of the register at `address` returns when it starts after
the trace `tr`: what the slave answers to the third exchange, as a `char`. -/
def readValue (spi : SpiSlave) (tr : List Event) (opcode address : Nat) : Nat :=
  spi (tr ++ [Event.mutexLock, Event.cs 0, Event.spiWrite (opcode ||| 1),
    Event.spiWrite address, Event.spiWrite 0]) % 256

/-- One call of the registry interface. -/
inductive RegistryCall where
  | attach (port : ExpPortName) (pin : ExpPinName) (func : Callback) (id : Nat)
  | detach (port : ExpPortName) (pin : ExpPinName)
  deriving DecidableEq

/-- The device after one call of the registry interface, when the call has a result. -/
def applyCall (s : MCP23S17) : RegistryCall → Except Fault MCP23S17
  | RegistryCall.attach port pin func id => (s.attach port pin func id).map Prod.snd
  | RegistryCall.detach port pin => (s.detach port pin).map Prod.snd

/-- The device after a sequence of calls of the registry interface, when each call has a
result. -/
def runCalls : MCP23S17 → List RegistryCall → Except Fault MCP23S17
  | s, [] => Except.ok s
  | s, c :: cs =>
    match applyCall s c with
    | Except.ok s1 => runCalls s1 cs
    | Except.error f => Except.error f

/-- An SPI slave with fixed register contents: it answers the third exchange of a
transaction with the content of the register addressed in the second exchange. -/
def regSlave (regs : Nat → Nat) : SpiSlave := fun t =>
  match t.reverse with
  | _ :: Event.spiWrite address :: _ => regs address
  | _ => 0

/-- A device as the constructor leaves it with an interrupt line on pin 5, opcode 0x40 and
port width `PW_8`. -/
def sampleDevice : MCP23S17 := MCP23S17.construct 0x40 5 PW_8

/-- A device as the constructor leaves it when given the port width 4. -/
def narrowDevice : MCP23S17 := MCP23S17.construct 0x40 5 4

/-- A device as the constructor leaves it without an interrupt line. -/
def sampleDeviceNC : MCP23S17 := MCP23S17.construct 0x40 NC PW_8

/-- A registry with a binding for pin 3 of port A and one for pin 0 of port B. -/
def sampleList : List expGPIO_t :=
  [{ port := EXPPORT_A, pin := 3, func := some 11, id := 101 },
   { port := EXPPORT_B, pin := 0, func := some 12, id := 102 }]

/-- The sample device with the sample registry. -/
def sampleBound : MCP23S17 := { sampleDevice with intList := sampleList }

/-- Whether an event is the call of a callback. -/
def Event.isCall : Event → Bool
  | Event.call _ _ _ => true
  | _ => false

/-- Register contents with bit 0 flagged, and set, on port A; everything else reads 0. -/
def pinZeroRegs : Nat → Nat := fun a =>
  if a = INTF then 0x01 else if a = GPIO then 0x01 else 0

/-- The sample device with one binding, for pin 0 of port A. -/
def pinZeroDevice : MCP23S17 :=
  { sampleDevice with
    intList := [{ port := EXPPORT_A, pin := 0, func := some 11, id := 101 }] }

/-- Register contents with bits 1 and 3 flagged on port A while only pin 3 is high. -/
def edgeRegs : Nat → Nat := fun a =>
  if a = INTF then 0x0A else if a = GPIO then 0x08 else 0

/-- The sample device with one binding, for pin 1 of port A. -/
def edgeDevice : MCP23S17 :=
  { sampleDevice with
    intList := [{ port := EXPPORT_A, pin := 1, func := some 11, id := 101 }] }

/-- The device after a dispatch pass of `edgeDevice` over `edgeRegs`. -/
def edgeResult : MCP23S17 :=
  { edgeDevice with
    trace := (edgeDevice.trace ++ readFrame 0x40 INTF ++ readFrame 0x40 GPIO
      ++ [Event.call 11 101 IRQ_RISE]) }

/-- Whether the edge-notification callback is attached to the interrupt line after the events
of a trace: the argument of the last `_int.rise`, `none` when there was none. -/
def callbackAttached (tr : List Event) : Option Bool :=
  tr.foldl (fun st e => match e with
    | Event.intRise b => some b
    | _ => st) none

/-- One event seen by a chip that keeps what was last written to each address. The state is
the bytes of the transaction under way and the register contents: chip-select low starts a
transaction, a byte sent is added to it, and chip-select high after exactly an even opcode, an
address and a data byte stores the data byte at the address. -/
def chipStep (st : List Nat × (Nat → Nat)) : Event → List Nat × (Nat → Nat)
  | Event.cs level =>
    if level = 0 then ([], st.2)
    else
      match st.1 with
      | [opcode, address, data] =>
        if opcode % 2 = 0 then ([], Function.update st.2 address data) else ([], st.2)
      | _ => ([], st.2)
  | Event.spiWrite b => (st.1 ++ [b], st.2)
  | _ => st

/-- The register contents of that chip after the events of a trace, every register being 0
before the first write. -/
def chipRegs (tr : List Event) : Nat → Nat :=
  (tr.foldl chipStep ([], fun _ => 0)).2

/-- An SPI slave that returns on read what was last written to each register: it answers the
third exchange of a transaction with an odd opcode with the content of the register addressed
in the second exchange. -/
def chipSlave : SpiSlave := fun t =>
  match t.reverse with
  | Event.spiWrite _ :: Event.spiWrite address :: Event.spiWrite opcode :: Event.cs 0 ::
      before =>
    if opcode % 2 = 1 then chipRegs before.reverse address else 0
  | _ => 0

/-- Register contents with bit 0 flagged on port A and bit 3 flagged, and set, on port B. -/
def twoPortRegs : Nat → Nat := fun a =>
  if a = INTF then 0x01 else if a = INTF ||| 1 then 0x08 else if a = GPIO ||| 1 then 0x08 else 0

/-- The sample device with one binding, for pin 3 of port B. -/
def twoPortDevice : MCP23S17 :=
  { sampleDevice with
    intList := [{ port := EXPPORT_B, pin := 3, func := some 12, id := 102 }] }

/-! ## Bus transport and register access -/

namespace MCP23S17

theorem _write_eq (s : MCP23S17) (address data : Nat) :
    s._write address data =
      { s with trace := s.trace ++ writeFrame s.config.opcode address data } := by
  simp [_write, log, writeFrame]

theorem _read_snd (spi : SpiSlave) (s : MCP23S17) (address : Nat) :
    (s._read spi address).2 =
      { s with trace := s.trace ++ readFrame s.config.opcode address } := by
  simp [_read, log, readFrame]

theorem _enableCallback_eq (s : MCP23S17) (state : Bool) :
    s._enableCallback state =
      { s with trace := s.trace ++ callbackEvents s.config.interrupt state } := by
  unfold _enableCallback callbackEvents
  by_cases h : s.config.interrupt = -1
  · simp [h]
  · cases state <;> simp [h, log]

end MCP23S17

theorem toChar_natCast (n : Nat) (h : n ≤ 255) : toChar (n : Int) = n := by
  unfold toChar
  omega

theorem toChar_lt (v : Int) : toChar v < 256 := by
  unfold toChar
  omega

theorem lor_toChar_mod (r : Nat) (hr : r < 256) (v : Int) :
    (r ||| toChar v) % 256 = r ||| toChar v :=
  Nat.mod_eq_of_lt (Nat.or_lt_two_pow (n := 8) hr (toChar_lt v))

theorem xor_byte_mod (a b : Nat) (ha : a ≤ 255) (hb : b ≤ 255) : (a ^^^ b) % 256 = a ^^^ b :=
  Nat.mod_eq_of_lt (Nat.xor_lt_two_pow (n := 8) (by omega) (by omega))

/-- C9. Bus framing: `_write(address, data)` appends to the trace exactly lock, chip-select
low, the opcode, the address, the data byte, chip-select high, unlock and changes nothing
else; `_read(address)` appends exactly lock, chip-select low, opcode|1, the address, the dummy
byte 0, chip-select high, unlock, changes nothing else, and returns the byte the SPI
peripheral gave back for the third exchange (the one of the dummy byte). -/
theorem bus_framing (spi : SpiSlave) (s : MCP23S17) (address data : Nat) :
    s._write address data =
      { s with trace := s.trace ++
          [Event.mutexLock, Event.cs 0, Event.spiWrite s.config.opcode,
           Event.spiWrite address, Event.spiWrite data, Event.cs 1, Event.mutexUnlock] } ∧
    (s._read spi address).2 =
      { s with trace := s.trace ++
          [Event.mutexLock, Event.cs 0, Event.spiWrite (s.config.opcode ||| 1),
           Event.spiWrite address, Event.spiWrite 0, Event.cs 1, Event.mutexUnlock] } ∧
    (s._read spi address).1 =
      spi (s.trace ++
          [Event.mutexLock, Event.cs 0, Event.spiWrite (s.config.opcode ||| 1),
           Event.spiWrite address, Event.spiWrite 0]) % 256 := by
  refine ⟨?_, ?_, ?_⟩ <;> simp [MCP23S17._write, MCP23S17._read, MCP23S17.log]

/-- C1, as amended. Whatever the configured port width, for every port and every mask
`m > 255`: setDirection, setConfigureMode with mode PullUp, write, and setInterruptEnable with
`m` as any one of its three masks all return ExpError_MASK and leave the device state, hence
the trace, as it was, so no bus transaction is issued; on a device whose configured width `w`
is at least 8 that covers every `m > 2^w - 1`. The width is not consulted: for every
`m <= 255`, also one above `2^w - 1`, setDirection, setConfigureMode with mode PullUp and
write return ExpError_OK. -/
theorem set_operations_mask_bound (s : MCP23S17) (port : ExpPortName) (m : Int) :
    (m > 255 →
      s.setDirection port m = (ExpError_MASK, s) ∧
      s.setConfigureMode port PullUp m = (ExpError_MASK, s) ∧
      s.write port m = (ExpError_MASK, s) ∧
      ∀ a b c : Int, a = m ∨ b = m ∨ c = m →
        s.setInterruptEnable port a b c = (ExpError_MASK, s)) ∧
    (8 ≤ s.config.portWidth → m > 2 ^ s.config.portWidth - 1 →
      s.setDirection port m = (ExpError_MASK, s) ∧
      s.setConfigureMode port PullUp m = (ExpError_MASK, s) ∧
      s.write port m = (ExpError_MASK, s) ∧
      ∀ a b c : Int, a = m ∨ b = m ∨ c = m →
        s.setInterruptEnable port a b c = (ExpError_MASK, s)) ∧
    (m ≤ 255 →
      (s.setDirection port m).1 = ExpError_OK ∧
      (s.setConfigureMode port PullUp m).1 = ExpError_OK ∧
      (s.write port m).1 = ExpError_OK) := by
  have hrej : m > 255 →
      s.setDirection port m = (ExpError_MASK, s) ∧
      s.setConfigureMode port PullUp m = (ExpError_MASK, s) ∧
      s.write port m = (ExpError_MASK, s) ∧
      ∀ a b c : Int, a = m ∨ b = m ∨ c = m →
        s.setInterruptEnable port a b c = (ExpError_MASK, s) := by
    intro hgt
    have hgt2 : m > 0xFF := hgt
    refine ⟨?_, ?_, ?_, ?_⟩
    · simp [MCP23S17.setDirection, hgt2]
    · simp [MCP23S17.setConfigureMode, hgt2]
    · simp [MCP23S17.write, hgt2]
    · intro a b c habc
      have : a > 0xFF ∨ b > 0xFF ∨ c > 0xFF := by
        rcases habc with h | h | h
        · exact Or.inl (h ▸ hgt2)
        · exact Or.inr (Or.inl (h ▸ hgt2))
        · exact Or.inr (Or.inr (h ▸ hgt2))
      simp [MCP23S17.setInterruptEnable, this]
  refine ⟨hrej, ?_, ?_⟩
  · intro hw hm
    have h256 : (2 : Int) ^ 8 ≤ 2 ^ s.config.portWidth :=
      pow_le_pow_right₀ (by norm_num) hw
    apply hrej
    norm_num at h256 ⊢
    omega
  · intro hle
    have h1 : ¬ (m > 0xFF) := by
      norm_num
      exact hle
    have h2 : ¬ (m > 0xFF ∨ PullUp ≠ PullUp) := by
      simp only [ne_eq, not_true_eq_false, or_false]
      exact h1
    exact ⟨by simp only [MCP23S17.setDirection, if_neg h1],
      by simp only [MCP23S17.setConfigureMode, if_neg h2],
      by simp only [MCP23S17.write, if_neg h1]⟩

/-- C1, witness: the sample device (port width 8), port B, mask 256; and mask 16 on the
device of port width 4. -/
theorem set_operations_mask_bound_witness :
    (sampleDevice.setDirection EXPPORT_B 256 = (ExpError_MASK, sampleDevice) ∧
     sampleDevice.setConfigureMode EXPPORT_B PullUp 256 = (ExpError_MASK, sampleDevice) ∧
     sampleDevice.write EXPPORT_B 256 = (ExpError_MASK, sampleDevice) ∧
     ∀ a b c : Int, a = 256 ∨ b = 256 ∨ c = 256 →
       sampleDevice.setInterruptEnable EXPPORT_B a b c = (ExpError_MASK, sampleDevice)) ∧
    ((narrowDevice.setDirection EXPPORT_A 16).1 = ExpError_OK ∧
     (narrowDevice.setConfigureMode EXPPORT_A PullUp 16).1 = ExpError_OK ∧
     (narrowDevice.write EXPPORT_A 16).1 = ExpError_OK) :=
  ⟨(set_operations_mask_bound sampleDevice EXPPORT_B 256).2.1 (by decide) (by decide),
   (set_operations_mask_bound narrowDevice EXPPORT_A 16).2.2 (by decide)⟩

/-- C1, counterexample. On a device constructed with the port width 4, the mask 16 is above
2^4 - 1 = 15, yet setDirection(EXPPORT_A, 16) and write(EXPPORT_A, 16) return ExpError_OK and
each issues a write transaction with the data byte 16. -/
theorem narrow_width_mask_accepted :
    narrowDevice.config.portWidth = 4 ∧
    (16 : Int) > 2 ^ narrowDevice.config.portWidth - 1 ∧
    narrowDevice.setDirection EXPPORT_A 16 =
      (ExpError_OK,
        { narrowDevice with trace := narrowDevice.trace ++ writeFrame 0x40 IODIR 16 }) ∧
    narrowDevice.write EXPPORT_A 16 =
      (ExpError_OK,
        { narrowDevice with trace := narrowDevice.trace ++ writeFrame 0x40 OLAT 16 }) :=
  ⟨rfl, by decide, rfl, rfl⟩

/-- C2. For every port and every mask triple (en, rise, fall) with each mask in 0..255,
setInterruptEnable(port, en, rise, fall) returns ExpError_OK and adds to the trace exactly
three write transactions, in this order: INTCON|port with data rise XOR fall, DEFVAL|port
with data fall, GPINTEN|port with data en; they stand between the events of
`_enableCallback(false)` and `_enableCallback(true)` (none on a device without an interrupt
line), and nothing else of the device changes. -/
theorem setInterruptEnable_programs_registers (s : MCP23S17) (port : ExpPortName)
    (en rise fall : Nat) (hen : en ≤ 255) (hrise : rise ≤ 255) (hfall : fall ≤ 255) :
    s.setInterruptEnable port en rise fall =
      (ExpError_OK,
        { s with trace := (s.trace ++ callbackEvents s.config.interrupt false
            ++ writeFrame s.config.opcode (INTCON ||| toChar port) (rise ^^^ fall)
            ++ writeFrame s.config.opcode (DEFVAL ||| toChar port) fall
            ++ writeFrame s.config.opcode (GPINTEN ||| toChar port) en
            ++ callbackEvents s.config.interrupt true) }) := by
  have h1 : ¬ ((en : Int) > 0xFF ∨ (rise : Int) > 0xFF ∨ (fall : Int) > 0xFF) := by
    norm_num
    omega
  unfold MCP23S17.setInterruptEnable
  rw [if_neg h1]
  simp only [MCP23S17._write_eq, MCP23S17._enableCallback_eq, toChar_natCast _ hen,
    toChar_natCast _ hrise, toChar_natCast _ hfall, xor_byte_mod _ _ hrise hfall,
    lor_toChar_mod INTCON (by decide) port, lor_toChar_mod DEFVAL (by decide) port,
    lor_toChar_mod GPINTEN (by decide) port, List.append_assoc]

/-- C2, witness: the sample device, port B, en 0x0F, rise 0x05, fall 0x0C. -/
theorem setInterruptEnable_programs_registers_witness :
    sampleDevice.setInterruptEnable EXPPORT_B 0x0F 0x05 0x0C =
      (ExpError_OK,
        { sampleDevice with trace := (sampleDevice.trace ++ [Event.intRise false]
            ++ writeFrame 0x40 0x09 0x09 ++ writeFrame 0x40 0x07 0x0C
            ++ writeFrame 0x40 0x05 0x0F ++ [Event.intRise true]) }) :=
  setInterruptEnable_programs_registers sampleDevice EXPPORT_B 0x0F 0x05 0x0C
    (by decide) (by decide) (by decide)

/-! ## Handler registry -/

theorem findFrom_ne_singular (port : ExpPortName) (pin : ExpPinName) :
    ∀ (l : List expGPIO_t) (i : Nat), MCP23S17.findFrom port pin l i ≠ ListIter.singular := by
  intro l
  induction l with
  | nil => intro i; simp [MCP23S17.findFrom]
  | cons e rest ih =>
    intro i
    unfold MCP23S17.findFrom
    split
    · simp
    · exact ih (i + 1)

theorem findFrom_endIt_iff (port : ExpPortName) (pin : ExpPinName) :
    ∀ (l : List expGPIO_t) (i : Nat),
      MCP23S17.findFrom port pin l i = ListIter.endIt ↔ (port, pin) ∉ keys l := by
  intro l
  induction l with
  | nil => intro i; simp [MCP23S17.findFrom, keys]
  | cons e rest ih =>
    intro i
    unfold MCP23S17.findFrom
    by_cases h : e.pin = pin ∧ e.port = port
    · rw [if_pos h]
      simp [keys, h.1, h.2]
    · rw [if_neg h, ih (i + 1)]
      have hne : ¬ (port, pin) = (e.port, e.pin) := by
        intro heq
        cases heq
        exact h ⟨rfl, rfl⟩
      simp only [keys, List.map_cons, List.mem_cons, hne, false_or]

theorem findFrom_node (port : ExpPortName) (pin : ExpPinName) :
    ∀ (l : List expGPIO_t) (i k : Nat), MCP23S17.findFrom port pin l i = ListIter.node k →
      i ≤ k ∧ ∃ e, l[k - i]? = some e ∧ e.port = port ∧ e.pin = pin := by
  intro l
  induction l with
  | nil => intro i k h; simp [MCP23S17.findFrom] at h
  | cons e rest ih =>
    intro i k h
    unfold MCP23S17.findFrom at h
    by_cases hm : e.pin = pin ∧ e.port = port
    · rw [if_pos hm] at h
      cases h
      exact ⟨le_refl _, e, by simp, hm.2, hm.1⟩
    · rw [if_neg hm] at h
      obtain ⟨hle, e1, hget, hp⟩ := ih (i + 1) k h
      refine ⟨by omega, e1, ?_, hp⟩
      have : k - i = (k - (i + 1)) + 1 := by omega
      rw [this, List.getElem?_cons_succ]
      exact hget

theorem findFrom_found (port : ExpPortName) (pin : ExpPinName) (l : List expGPIO_t) (i : Nat)
    (h : (port, pin) ∈ keys l) : ∃ k, MCP23S17.findFrom port pin l i = ListIter.node k := by
  cases hf : MCP23S17.findFrom port pin l i with
  | node k => exact ⟨k, rfl⟩
  | endIt => exact absurd h ((findFrom_endIt_iff port pin l i).1 hf)
  | singular => exact absurd hf (findFrom_ne_singular port pin l i)

theorem _getExpGPIO_cons (port : ExpPortName) (pin : ExpPinName) (e : expGPIO_t)
    (l : List expGPIO_t) :
    MCP23S17._getExpGPIO (e :: l) port pin = MCP23S17.findFrom port pin (e :: l) 0 := by
  simp [MCP23S17._getExpGPIO]

theorem _getExpGPIO_of_ne_nil (port : ExpPortName) (pin : ExpPinName) (l : List expGPIO_t)
    (h : l ≠ []) : MCP23S17._getExpGPIO l port pin = MCP23S17.findFrom port pin l 0 := by
  cases l with
  | nil => exact absurd rfl h
  | cons e rest => exact _getExpGPIO_cons port pin e rest

theorem keys_assignAt (id : Nat) (func : Callback) :
    ∀ (l : List expGPIO_t) (k : Nat), keys (MCP23S17.assignAt id func l k) = keys l := by
  intro l
  induction l with
  | nil => intro k; simp [MCP23S17.assignAt]
  | cons e rest ih =>
    intro k
    cases k with
    | zero => simp [MCP23S17.assignAt, keys]
    | succ k =>
      have := ih k
      simp only [keys, List.map_cons, MCP23S17.assignAt] at this ⊢
      rw [this]

theorem length_assignAt (id : Nat) (func : Callback) (l : List expGPIO_t) (k : Nat) :
    (MCP23S17.assignAt id func l k).length = l.length := by
  have h := congrArg List.length (keys_assignAt id func l k)
  simpa [keys] using h

theorem getElem?_assignAt (id : Nat) (func : Callback) :
    ∀ (l : List expGPIO_t) (k : Nat) (e : expGPIO_t), l[k]? = some e →
      (MCP23S17.assignAt id func l k)[k]? = some { e with id := id, func := func } := by
  intro l
  induction l with
  | nil => intro k e h; simp at h
  | cons a rest ih =>
    intro k e h
    cases k with
    | zero =>
      simp only [List.getElem?_cons_zero, Option.some.injEq] at h
      simp [MCP23S17.assignAt, h]
    | succ k =>
      simp only [List.getElem?_cons_succ] at h
      simpa [MCP23S17.assignAt] using ih k e h

theorem findFrom_congr_keys (port : ExpPortName) (pin : ExpPinName) :
    ∀ (l l2 : List expGPIO_t) (i : Nat), keys l = keys l2 →
      MCP23S17.findFrom port pin l i = MCP23S17.findFrom port pin l2 i := by
  intro l
  induction l with
  | nil =>
    intro l2 i h
    cases l2 with
    | nil => rfl
    | cons b r => simp [keys] at h
  | cons a rest ih =>
    intro l2 i h
    cases l2 with
    | nil => simp [keys] at h
    | cons b r =>
      simp only [keys, List.map_cons, List.cons.injEq, Prod.mk.injEq] at h
      unfold MCP23S17.findFrom
      rw [h.1.1, h.1.2, ih r (i + 1) h.2]

theorem eraseFirst_sublist (port : ExpPortName) (pin : ExpPinName) :
    ∀ l : List expGPIO_t, (MCP23S17.eraseFirst port pin l).Sublist l := by
  intro l
  induction l with
  | nil => simp [MCP23S17.eraseFirst]
  | cons e rest ih =>
    unfold MCP23S17.eraseFirst
    split
    · exact List.sublist_cons_self e rest
    · exact ih.cons₂ e

theorem uniqueKeys_eraseFirst (port : ExpPortName) (pin : ExpPinName) (l : List expGPIO_t)
    (h : UniqueKeys l) : UniqueKeys (MCP23S17.eraseFirst port pin l) :=
  List.Nodup.sublist ((eraseFirst_sublist port pin l).map _) h

theorem attach_uniqueKeys (s s1 : MCP23S17) (port : ExpPortName) (pin : ExpPinName)
    (func : Callback) (id : Nat) (r : ExpError) (h : UniqueKeys s.intList)
    (hrun : s.attach port pin func id = Except.ok (r, s1)) : UniqueKeys s1.intList := by
  unfold MCP23S17.attach at hrun
  by_cases hv : MCP23S17.validArgs port pin
  · rw [if_neg (not_not.2 hv)] at hrun
    by_cases hne : s.intList = []
    · simp [hne, MCP23S17._getExpGPIO] at hrun
    · rw [_getExpGPIO_of_ne_nil port pin _ hne] at hrun
      cases hf : MCP23S17.findFrom port pin s.intList 0 with
      | singular => exact absurd hf (findFrom_ne_singular port pin _ 0)
      | node k =>
        rw [hf] at hrun
        simp only [Except.ok.injEq, Prod.mk.injEq] at hrun
        rw [← hrun.2]
        show UniqueKeys (MCP23S17.assignAt id func s.intList k)
        unfold UniqueKeys
        rw [keys_assignAt]
        exact h
      | endIt =>
        rw [hf] at hrun
        simp only [Except.ok.injEq, Prod.mk.injEq] at hrun
        rw [← hrun.2]
        show UniqueKeys (s.intList ++ [_])
        have hnot := (findFrom_endIt_iff port pin _ 0).1 hf
        unfold UniqueKeys at h ⊢
        simp only [keys, List.map_append, List.map_cons, List.map_nil] at h hnot ⊢
        rw [List.nodup_append]
        refine ⟨h, List.nodup_singleton _, ?_⟩
        intro a ha hb
        simp only [List.mem_singleton] at hb
        exact hnot (hb ▸ ha)
  · rw [if_pos hv] at hrun
    simp only [Except.ok.injEq, Prod.mk.injEq] at hrun
    rw [← hrun.2]
    exact h

theorem detach_uniqueKeys (s s1 : MCP23S17) (port : ExpPortName) (pin : ExpPinName)
    (r : ExpError) (h : UniqueKeys s.intList)
    (hrun : s.detach port pin = Except.ok (r, s1)) : UniqueKeys s1.intList := by
  unfold MCP23S17.detach at hrun
  by_cases hv : MCP23S17.validArgs port pin
  · rw [if_neg (not_not.2 hv)] at hrun
    cases ha : s.isAttached port pin with
    | error f => simp [ha] at hrun
    | ok b =>
      cases b with
      | true =>
        simp only [ha, Except.ok.injEq, Prod.mk.injEq] at hrun
        rw [← hrun.2]
        exact uniqueKeys_eraseFirst port pin _ h
      | false =>
        simp only [ha, Except.ok.injEq, Prod.mk.injEq] at hrun
        rw [← hrun.2]
        exact h
  · rw [if_pos hv] at hrun
    simp only [Except.ok.injEq, Prod.mk.injEq] at hrun
    rw [← hrun.2]
    exact h

theorem applyCall_uniqueKeys (s s1 : MCP23S17) (c : RegistryCall) (h : UniqueKeys s.intList)
    (hrun : applyCall s c = Except.ok s1) : UniqueKeys s1.intList := by
  cases c with
  | attach port pin func id =>
    unfold applyCall at hrun
    cases hr : s.attach port pin func id with
    | error f => simp [hr, Except.map] at hrun
    | ok res =>
      simp only [hr, Except.map, Except.ok.injEq] at hrun
      exact attach_uniqueKeys s s1 port pin func id res.1 h (by rw [hr, ← hrun])
  | detach port pin =>
    unfold applyCall at hrun
    cases hr : s.detach port pin with
    | error f => simp [hr, Except.map] at hrun
    | ok res =>
      simp only [hr, Except.map, Except.ok.injEq] at hrun
      exact detach_uniqueKeys s s1 port pin res.1 h (by rw [hr, ← hrun])

/-! ## The registry where its lookup is defined -/

theorem findFrom_node_mem (port : ExpPortName) (pin : ExpPinName) (l : List expGPIO_t)
    (i k : Nat) (h : MCP23S17.findFrom port pin l i = ListIter.node k) :
    (port, pin) ∈ keys l := by
  by_contra hno
  rw [(findFrom_endIt_iff port pin l i).2 hno] at h
  cases h

theorem isAttached_of_nonempty (s : MCP23S17) (port : ExpPortName) (pin : ExpPinName)
    (hv : MCP23S17.validArgs port pin) (hne : s.intList ≠ []) :
    s.isAttached port pin = Except.ok (decide ((port, pin) ∈ keys s.intList)) := by
  unfold MCP23S17.isAttached
  rw [if_neg (not_not.2 hv), _getExpGPIO_of_ne_nil port pin _ hne]
  cases hf : MCP23S17.findFrom port pin s.intList 0 with
  | singular => exact absurd hf (findFrom_ne_singular port pin _ 0)
  | node k => simp [findFrom_node_mem port pin _ 0 k hf]
  | endIt => simp [(findFrom_endIt_iff port pin _ 0).1 hf]

/-- On a registry that is not empty, detach of a valid (port, pin) without a binding returns
ExpError_NOTINITIALIZED and leaves the device as it was. -/
theorem detach_unbound_of_nonempty (s : MCP23S17) (port : ExpPortName) (pin : ExpPinName)
    (hv : MCP23S17.validArgs port pin) (hne : s.intList ≠ [])
    (hun : (port, pin) ∉ keys s.intList) :
    s.detach port pin = Except.ok (ExpError_NOTINITIALIZED, s) := by
  unfold MCP23S17.detach
  rw [if_neg (not_not.2 hv), isAttached_of_nonempty s port pin hv hne]
  simp [hun]

/-- On a registry that holds a binding for the valid (port, pin), detach returns ExpError_OK
and erases the first binding of that key. -/
theorem detach_bound (s : MCP23S17) (port : ExpPortName) (pin : ExpPinName)
    (hv : MCP23S17.validArgs port pin) (hb : (port, pin) ∈ keys s.intList) :
    s.detach port pin =
      Except.ok (ExpError_OK, { s with intList := MCP23S17.eraseFirst port pin s.intList }) := by
  have hne : s.intList ≠ [] := by
    intro h
    simp [h, keys] at hb
  unfold MCP23S17.detach
  rw [if_neg (not_not.2 hv), isAttached_of_nonempty s port pin hv hne]
  simp [hb]

/-- On a registry that is not empty, attach with valid arguments returns ExpError_OK, and
isAttached on the same (port, pin) is then true. -/
theorem attach_then_isAttached (s : MCP23S17) (port : ExpPortName) (pin : ExpPinName)
    (func : Callback) (id : Nat) (hv : MCP23S17.validArgs port pin) (hne : s.intList ≠ []) :
    ∃ l2 : List expGPIO_t,
      s.attach port pin func id = Except.ok (ExpError_OK, { s with intList := l2 }) ∧
      (port, pin) ∈ keys l2 ∧
      MCP23S17.isAttached { s with intList := l2 } port pin = Except.ok true := by
  have key : ∃ l2 : List expGPIO_t,
      s.attach port pin func id = Except.ok (ExpError_OK, { s with intList := l2 }) ∧
      (port, pin) ∈ keys l2 := by
    unfold MCP23S17.attach
    rw [if_neg (not_not.2 hv), _getExpGPIO_of_ne_nil port pin _ hne]
    cases hf : MCP23S17.findFrom port pin s.intList 0 with
    | singular => exact absurd hf (findFrom_ne_singular port pin _ 0)
    | node k =>
      refine ⟨MCP23S17.assignAt id func s.intList k, rfl, ?_⟩
      rw [keys_assignAt]
      exact findFrom_node_mem port pin _ 0 k hf
    | endIt =>
      refine ⟨s.intList ++ [{ id := id, port := port, pin := pin, func := func }], rfl, ?_⟩
      simp [keys]
  obtain ⟨l2, h1, h2⟩ := key
  refine ⟨l2, h1, h2, ?_⟩
  have hne2 : l2 ≠ [] := by
    intro h
    simp [h, keys] at h2
  rw [isAttached_of_nonempty _ port pin hv hne2]
  simp [h2]

theorem not_mem_keys_eraseFirst (port : ExpPortName) (pin : ExpPinName) :
    ∀ l : List expGPIO_t, UniqueKeys l → (port, pin) ∉ keys (MCP23S17.eraseFirst port pin l) := by
  intro l
  induction l with
  | nil => intro _; simp [MCP23S17.eraseFirst, keys]
  | cons e rest ih =>
    intro hu
    unfold UniqueKeys at hu
    simp only [keys, List.map_cons, List.nodup_cons] at hu
    unfold MCP23S17.eraseFirst
    by_cases hm : e.pin = pin ∧ e.port = port
    · rw [if_pos hm]
      have := hu.1
      rw [hm.1, hm.2] at this
      exact this
    · rw [if_neg hm]
      simp only [keys, List.map_cons, List.mem_cons, not_or]
      refine ⟨?_, ih hu.2⟩
      intro heq
      cases heq
      exact hm ⟨rfl, rfl⟩

theorem mem_keys_eraseFirst_of_ne (port : ExpPortName) (pin : ExpPinName)
    (k : ExpPortName × ExpPinName) (hk : k ≠ (port, pin)) :
    ∀ l : List expGPIO_t, k ∈ keys l → k ∈ keys (MCP23S17.eraseFirst port pin l) := by
  intro l
  induction l with
  | nil => intro h; simp [keys] at h
  | cons e rest ih =>
    intro h
    unfold MCP23S17.eraseFirst
    simp only [keys, List.map_cons, List.mem_cons] at h
    by_cases hm : e.pin = pin ∧ e.port = port
    · rw [if_pos hm]
      rcases h with h | h
      · rw [hm.1, hm.2] at h
        exact absurd h hk
      · exact h
    · rw [if_neg hm]
      simp only [keys, List.map_cons, List.mem_cons]
      rcases h with h | h
      · exact Or.inl h
      · exact Or.inr (ih h)

/-- On a registry with unique keys that holds a binding for the valid (port, pin) and one for
another key, detach returns ExpError_OK and isAttached on the same (port, pin) is then
false. -/
theorem detach_then_isAttached (s : MCP23S17) (port : ExpPortName) (pin : ExpPinName)
    (hv : MCP23S17.validArgs port pin) (hu : UniqueKeys s.intList)
    (hb : (port, pin) ∈ keys s.intList)
    (hother : ∃ k ∈ keys s.intList, k ≠ (port, pin)) :
    ∃ s2, s.detach port pin = Except.ok (ExpError_OK, s2) ∧
      s2.isAttached port pin = Except.ok false := by
  refine ⟨_, detach_bound s port pin hv hb, ?_⟩
  obtain ⟨k, hk, hne⟩ := hother
  have hmem := mem_keys_eraseFirst_of_ne port pin k hne _ hk
  have hne2 : MCP23S17.eraseFirst port pin s.intList ≠ [] := by
    intro h
    simp [h, keys] at hmem
  rw [isAttached_of_nonempty _ port pin hv hne2]
  simp [not_mem_keys_eraseFirst port pin _ hu]

/-! ## The registry claims -/

/-- C8. Registry invariant: from a registry that holds at most one binding for each
(port, pin) pair, in particular from the empty registry of a constructed device, every state
reached by a sequence of attach and detach calls, with any arguments, holds at most one
binding for each (port, pin) pair. -/
theorem registry_unique_keys (s0 : MCP23S17) (calls : List RegistryCall) (s : MCP23S17)
    (h0 : UniqueKeys s0.intList) (hrun : runCalls s0 calls = Except.ok s) :
    UniqueKeys s.intList := by
  induction calls generalizing s0 with
  | nil =>
    simp only [runCalls, Except.ok.injEq] at hrun
    exact hrun ▸ h0
  | cons c cs ih =>
    unfold runCalls at hrun
    cases hc : applyCall s0 c with
    | error f => simp [hc] at hrun
    | ok s1 =>
      simp only [hc] at hrun
      exact ih s1 (applyCall_uniqueKeys s0 s1 c h0 hc) hrun

/-- C8, witness: four calls from the sample registry, the last with invalid arguments. -/
theorem registry_unique_keys_witness :
    UniqueKeys sampleBound.intList ∧
    runCalls sampleBound
      [RegistryCall.attach EXPPORT_B 2 (some 13) 103, RegistryCall.attach EXPPORT_A 3 none 104,
       RegistryCall.detach EXPPORT_B 0, RegistryCall.attach 7 9 (some 15) 105] =
      Except.ok { sampleDevice with intList :=
        [{ port := EXPPORT_A, pin := 3, func := none, id := 104 },
         { port := EXPPORT_B, pin := 2, func := some 13, id := 103 }] } ∧
    UniqueKeys
      [{ port := EXPPORT_A, pin := 3, func := none, id := 104 },
       ({ port := EXPPORT_B, pin := 2, func := some 13, id := 103 } : expGPIO_t)] :=
  ⟨by decide, rfl,
   registry_unique_keys sampleBound
      [RegistryCall.attach EXPPORT_B 2 (some 13) 103, RegistryCall.attach EXPPORT_A 3 none 104,
       RegistryCall.detach EXPPORT_B 0, RegistryCall.attach 7 9 (some 15) 105]
      { sampleDevice with intList :=
        [{ port := EXPPORT_A, pin := 3, func := none, id := 104 },
         { port := EXPPORT_B, pin := 2, func := some 13, id := 103 }] }
      (by decide) rfl⟩

/-- C6. When the registry already holds a binding for (port, pin), with arguments that pass
attach's check, attach(port, pin, callback2, id2) returns ExpError_OK; the registry keeps its
length and its sequence of (port, pin) keys, so no second binding is created; the binding
the lookup finds for (port, pin) afterwards is exactly (port, pin, callback2, id2); and
nothing else of the device changes. -/
theorem attach_rebinds_in_place (s : MCP23S17) (port : ExpPortName) (pin : ExpPinName)
    (func2 : Callback) (id2 : Nat) (hvalid : MCP23S17.validArgs port pin)
    (hbound : (port, pin) ∈ keys s.intList) :
    ∃ l2 : List expGPIO_t,
      s.attach port pin func2 id2 = Except.ok (ExpError_OK, { s with intList := l2 }) ∧
      l2.length = s.intList.length ∧
      keys l2 = keys s.intList ∧
      ∃ k, MCP23S17._getExpGPIO l2 port pin = ListIter.node k ∧
        l2[k]? = some { port := port, pin := pin, func := func2, id := id2 } := by
  have hne : s.intList ≠ [] := by
    intro h
    simp [h, keys] at hbound
  obtain ⟨k, hk⟩ := findFrom_found port pin s.intList 0 hbound
  obtain ⟨_, e, hget, hport, hpin⟩ := findFrom_node port pin s.intList 0 k hk
  refine ⟨MCP23S17.assignAt id2 func2 s.intList k, ?_, length_assignAt _ _ _ _,
    keys_assignAt _ _ _ _, k, ?_, ?_⟩
  · unfold MCP23S17.attach
    rw [if_neg (not_not.2 hvalid), _getExpGPIO_of_ne_nil port pin _ hne, hk]
  · have hne2 : MCP23S17.assignAt id2 func2 s.intList k ≠ [] := by
      intro h
      have := length_assignAt id2 func2 s.intList k
      rw [h] at this
      exact hne (List.length_eq_zero.1 this.symm)
    rw [_getExpGPIO_of_ne_nil port pin _ hne2,
      findFrom_congr_keys port pin _ s.intList 0 (keys_assignAt _ _ _ _), hk]
  · have := getElem?_assignAt id2 func2 s.intList k e (by simpa using hget)
    rw [this, ← hport, ← hpin]

/-- C6, witness: the sample registry, attach again on pin 0 of port B. -/
theorem attach_rebinds_in_place_witness :
    ∃ l2 : List expGPIO_t,
      sampleBound.attach EXPPORT_B 0 (some 21) 201 =
        Except.ok (ExpError_OK, { sampleBound with intList := l2 }) ∧
      l2.length = sampleBound.intList.length ∧
      keys l2 = keys sampleBound.intList ∧
      ∃ k, MCP23S17._getExpGPIO l2 EXPPORT_B 0 = ListIter.node k ∧
        l2[k]? = some { port := EXPPORT_B, pin := 0, func := some 21, id := 201 } :=
  attach_rebinds_in_place sampleBound EXPPORT_B 0 (some 21) 201 (by decide) (by decide)

/-- C5, at the failing inputs. On the empty registry of a constructed device
attach(EXPPORT_A, 3, callback, id) has no result: the lookup returns an iterator that was
never assigned and attach compares and dereferences it. And from a registry whose only
binding is the one for (EXPPORT_A, 3), attach and detach both return ExpError_OK, the
registry is empty again, and the isAttached that follows has no result either. -/
theorem attach_detach_isAttached_on_empty_registry :
    sampleDevice.intList = [] ∧
    sampleDevice.attach EXPPORT_A 3 (some 1) 7 = Except.error Fault.undefinedBehaviour ∧
    { sampleDevice with intList := [{ port := EXPPORT_A, pin := 3, func := some 11, id := 101 }]
      }.attach EXPPORT_A 3 (some 1) 7 =
      Except.ok (ExpError_OK,
        { sampleDevice with intList := [{ port := EXPPORT_A, pin := 3, func := some 1, id := 7 }] }) ∧
    { sampleDevice with intList := [{ port := EXPPORT_A, pin := 3, func := some 1, id := 7 }]
      }.detach EXPPORT_A 3 = Except.ok (ExpError_OK, sampleDevice) ∧
    sampleDevice.isAttached EXPPORT_A 3 = Except.error Fault.undefinedBehaviour :=
  ⟨rfl, rfl, rfl, rfl, rfl⟩

/-- C7, at the failing input. On the empty registry of a constructed device
detach(EXPPORT_A, 3) does not return ExpError_NOTINITIALIZED: isAttached compares the
iterator the lookup never assigned with `end()`, so the call has no result. -/
theorem detach_on_empty_registry :
    sampleDevice.intList = [] ∧
    MCP23S17._getExpGPIO sampleDevice.intList EXPPORT_A 3 = ListIter.singular ∧
    sampleDevice.detach EXPPORT_A 3 = Except.error Fault.undefinedBehaviour :=
  ⟨rfl, rfl, rfl⟩

/-! ## Interrupt dispatch -/

theorem shift_and_one_iff (m j : Nat) : (m >>> j) &&& 0x01 ≠ 0 ↔ m.testBit j = true := by
  unfold Nat.testBit
  rw [Nat.and_comm]
  simp

theorem bitScan_found (flag : Nat) : ∀ (n j pos : Nat),
    MCP23S17.bitScan flag n j pos ≠ pos →
      flag.testBit (MCP23S17.bitScan flag n j pos) = true ∧
      j ≤ MCP23S17.bitScan flag n j pos ∧ MCP23S17.bitScan flag n j pos < j + n ∧
      ∀ j2, j ≤ j2 → j2 < MCP23S17.bitScan flag n j pos → flag.testBit j2 = false := by
  intro n
  induction n with
  | zero => intro j pos h; exact absurd rfl h
  | succ n ih =>
    intro j pos h
    unfold MCP23S17.bitScan at h ⊢
    by_cases hb : (flag >>> j) &&& 0x01 ≠ 0
    · rw [if_pos hb]
      refine ⟨(shift_and_one_iff flag j).1 hb, le_refl _, by omega, ?_⟩
      intro j2 h1 h2
      omega
    · rw [if_neg hb] at h ⊢
      obtain ⟨h1, h2, h3, h4⟩ := ih (j + 1) pos h
      refine ⟨h1, by omega, by omega, ?_⟩
      intro j2 hj hlt
      by_cases hjj : j2 = j
      · subst hjj
        have := mt (shift_and_one_iff flag j2).2 hb
        simpa using this
      · exact h4 j2 (by omega) hlt

theorem and_two_pow_ne_zero_iff (g p : Nat) : g &&& 2 ^ p ≠ 0 ↔ g.testBit p = true := by
  constructor
  · intro h
    by_contra hb
    apply h
    apply Nat.eq_of_testBit_eq
    intro i
    simp only [Nat.testBit_and, Nat.testBit_two_pow, Nat.zero_testBit]
    by_cases hi : p = i
    · subst hi
      simp [hb]
    · simp [hi]
  · intro hb h
    have := congrArg (fun x => x.testBit p) h
    simp [Nat.testBit_two_pow_self, hb] at this

theorem call_not_mem_readFrame (opcode address f id : Nat) (ev : gpio_irq_event) :
    Event.call f id ev ∉ readFrame opcode address := by
  simp [readFrame]

theorem _getExpGPIO_node (l : List expGPIO_t) (port : ExpPortName) (pin : ExpPinName) (k : Nat)
    (h : MCP23S17._getExpGPIO l port pin = ListIter.node k) :
    ∃ e, l[k]? = some e ∧ e.port = port ∧ e.pin = pin := by
  cases l with
  | nil => simp [MCP23S17._getExpGPIO] at h
  | cons a rest =>
    rw [_getExpGPIO_cons] at h
    obtain ⟨_, e, hget, hp⟩ := findFrom_node port pin _ 0 k h
    exact ⟨e, by simpa using hget, hp⟩

theorem _read_fst (spi : SpiSlave) (s : MCP23S17) (address : Nat) :
    (s._read spi address).1 = readValue spi s.trace s.config.opcode address := by
  simp [MCP23S17._read, MCP23S17.log, readValue]

theorem _read_config (spi : SpiSlave) (s : MCP23S17) (address : Nat) :
    (s._read spi address).2.config = s.config := by
  rw [MCP23S17._read_snd]

theorem _read_intList (spi : SpiSlave) (s : MCP23S17) (address : Nat) :
    (s._read spi address).2.intList = s.intList := by
  rw [MCP23S17._read_snd]

theorem _read_trace (spi : SpiSlave) (s : MCP23S17) (address : Nat) :
    (s._read spi address).2.trace = s.trace ++ readFrame s.config.opcode address := by
  rw [MCP23S17._read_snd]

theorem _read_flags (spi : SpiSlave) (s : MCP23S17) (address : Nat) :
    (s._read spi address).2.threadrunning = s.threadrunning ∧
    (s._read spi address).2.interrupt = s.interrupt := by
  rw [MCP23S17._read_snd]
  exact ⟨rfl, rfl⟩

theorem dispatch_outcome (t s1 : MCP23S17) (i p : Nat) (event : gpio_irq_event)
    (h : MCP23S17.dispatch t i p event = Except.ok s1) :
    s1 = t ∨ ∃ e ∈ t.intList, ∃ f : Nat, e.port = (i : Int) ∧ e.pin = p ∧
      e.func = some f ∧ s1 = { t with trace := t.trace ++ [Event.call f e.id event] } := by
  unfold MCP23S17.dispatch at h
  cases hit : MCP23S17._getExpGPIO t.intList (i : Int) p with
  | singular => simp [hit] at h
  | endIt =>
    simp only [hit, Except.ok.injEq] at h
    exact Or.inl h.symm
  | node k =>
    obtain ⟨e, hget, hport, hpin⟩ := _getExpGPIO_node _ _ _ _ hit
    simp only [hit, hget] at h
    cases hf : e.func with
    | none =>
      simp only [hf, Except.ok.injEq] at h
      exact Or.inl h.symm
    | some f =>
      simp only [hf, Except.ok.injEq] at h
      exact Or.inr ⟨e, List.getElem?_mem hget, f, hport, hpin, hf, by rw [← h]; rfl⟩

theorem portLoop_outcome (spi : SpiSlave) : ∀ (ports : List Nat) (t s1 : MCP23S17),
    MCP23S17.portLoop spi ports 0 t = Except.ok s1 →
    s1.config = t.config ∧ s1.intList = t.intList ∧
    ((∃ X, s1.trace = t.trace ++ X ∧ ∀ f id ev, Event.call f id ev ∉ X) ∨
     (∃ i ∈ ports, ∃ Y, (∀ f id ev, Event.call f id ev ∉ Y) ∧
      ∃ flag gpio p : Nat, ∃ e ∈ t.intList, ∃ f : Nat,
        flag = readValue spi (t.trace ++ Y) t.config.opcode ((INTF ||| i) % 256) ∧
        gpio = readValue spi (t.trace ++ Y ++ readFrame t.config.opcode ((INTF ||| i) % 256))
          t.config.opcode (( GPIO ||| i) % 256) ∧
        p = MCP23S17.bitScan flag t.config.portWidth 0 0 ∧
        flag ≠ 0 ∧ p ≠ 0 ∧ e.port = (i : Int) ∧ e.pin = p ∧ e.func = some f ∧
        s1.trace = t.trace ++ Y
          ++ readFrame t.config.opcode ((INTF ||| i) % 256)
          ++ readFrame t.config.opcode (( GPIO ||| i) % 256)
          ++ [Event.call f e.id (if gpio &&& flag ≠ 0 then IRQ_RISE else IRQ_FALL)])) := by
  intro ports
  induction ports with
  | nil =>
    intro t s1 h
    simp only [MCP23S17.portLoop, Except.ok.injEq] at h
    subst h
    exact ⟨rfl, rfl, Or.inl ⟨[], by simp, by simp⟩⟩
  | cons i rest ih =>
    intro t s1 h
    unfold MCP23S17.portLoop at h
    dsimp only at h
    by_cases hflag : (t._read spi ((INTF ||| i) % 256)).1 = 0
    · rw [if_neg (not_not.2 hflag)] at h
      obtain ⟨hc, hl, hcase⟩ := ih _ _ h
      simp only [_read_config, _read_intList, _read_trace] at hc hl hcase
      refine ⟨hc, hl, ?_⟩
      rcases hcase with ⟨X, hX, hno⟩ |
        ⟨i2, hi2, Y, hY, flag, gpio, p, e, he, f, h1, h2, h3, h4, h5, h6, h7, h8, h9⟩
      · left
        refine ⟨readFrame t.config.opcode ((INTF ||| i) % 256) ++ X, ?_, ?_⟩
        · rw [hX, List.append_assoc]
        · intro f id ev hmem
          rcases List.mem_append.1 hmem with hm | hm
          · exact call_not_mem_readFrame _ _ _ _ _ hm
          · exact hno f id ev hm
      · right
        refine ⟨i2, List.mem_cons_of_mem _ hi2,
          readFrame t.config.opcode ((INTF ||| i) % 256) ++ Y, ?_, flag, gpio, p, e, he, f,
          ?_, ?_, h3, h4, h5, h6, h7, h8, ?_⟩
        · intro f id ev hmem
          rcases List.mem_append.1 hmem with hm | hm
          · exact call_not_mem_readFrame _ _ _ _ _ hm
          · exact hY f id ev hm
        · rw [h1, List.append_assoc]
        · rw [h2]; simp only [List.append_assoc]
        · rw [h9]; simp only [List.append_assoc]
    · rw [if_pos hflag] at h
      by_cases hp : MCP23S17.bitScan (t._read spi ((INTF ||| i) % 256)).1
          t.config.portWidth 0 0 = 0
      · rw [if_neg (not_not.2 hp), hp] at h
        obtain ⟨hc, hl, hcase⟩ := ih _ _ h
        simp only [_read_config, _read_intList, _read_trace] at hc hl hcase
        refine ⟨hc, hl, ?_⟩
        rcases hcase with ⟨X, hX, hno⟩ |
          ⟨i2, hi2, Y, hY, flag, gpio, p, e, he, f, h1, h2, h3, h4, h5, h6, h7, h8, h9⟩
        · left
          refine ⟨readFrame t.config.opcode ((INTF ||| i) % 256)
            ++ readFrame t.config.opcode (( GPIO ||| i) % 256) ++ X, ?_, ?_⟩
          · rw [hX]; simp only [List.append_assoc]
          · intro f id ev hmem
            rcases List.mem_append.1 hmem with hm | hm
            · rcases List.mem_append.1 hm with hm1 | hm1
              · exact call_not_mem_readFrame _ _ _ _ _ hm1
              · exact call_not_mem_readFrame _ _ _ _ _ hm1
            · exact hno f id ev hm
        · right
          refine ⟨i2, List.mem_cons_of_mem _ hi2,
            readFrame t.config.opcode ((INTF ||| i) % 256)
              ++ readFrame t.config.opcode (( GPIO ||| i) % 256) ++ Y, ?_, flag, gpio, p, e, he, f,
            ?_, ?_, h3, h4, h5, h6, h7, h8, ?_⟩
          · intro f id ev hmem
            rcases List.mem_append.1 hmem with hm | hm
            · rcases List.mem_append.1 hm with hm1 | hm1
              · exact call_not_mem_readFrame _ _ _ _ _ hm1
              · exact call_not_mem_readFrame _ _ _ _ _ hm1
            · exact hY f id ev hm
          · rw [h1]; simp only [List.append_assoc]
          · rw [h2]; simp only [List.append_assoc]
          · rw [h9]; simp only [List.append_assoc]
      · rw [if_pos hp] at h
        rcases dispatch_outcome _ _ _ _ _ h with hs | ⟨e, he, f, h6, h7, h8, hs⟩
        · subst hs
          simp only [_read_config, _read_intList, _read_trace]
          refine ⟨trivial, trivial, Or.inl ⟨readFrame t.config.opcode ((INTF ||| i) % 256)
            ++ readFrame t.config.opcode (( GPIO ||| i) % 256), ?_, ?_⟩⟩
          · simp only [List.append_assoc]
          · intro f id ev hmem
            rcases List.mem_append.1 hmem with hm1 | hm1
            · exact call_not_mem_readFrame _ _ _ _ _ hm1
            · exact call_not_mem_readFrame _ _ _ _ _ hm1
        · subst hs
          simp only [_read_config, _read_intList, _read_trace, _read_fst] at he hp hflag h7 ⊢
          refine ⟨trivial, trivial, Or.inr ⟨i, List.mem_cons_self _ _, [], by simp,
            readValue spi t.trace t.config.opcode ((INTF ||| i) % 256),
            readValue spi (t.trace ++ readFrame t.config.opcode ((INTF ||| i) % 256))
              t.config.opcode (( GPIO ||| i) % 256),
            MCP23S17.bitScan (readValue spi t.trace t.config.opcode ((INTF ||| i) % 256))
              t.config.portWidth 0 0,
            e, he, f, ?_, ?_, rfl, hflag, hp, h6, h7, h8, ?_⟩⟩
          all_goals simp only [List.append_nil]

theorem passPorts_eq : (List.range (EXPPORT_B.toNat + 1)).drop EXPPORT_A.toNat = [0, 1] := by
  decide

theorem port_address_mod (r i : Nat) (hr : r < 255) (hi : i = 0 ∨ i = 1) :
    (r ||| i) % 256 = r ||| i := by
  apply Nat.mod_eq_of_lt
  rcases hi with h | h <;> subst h
  · simpa using Nat.lt_succ_of_lt hr
  · exact Nat.or_lt_two_pow (n := 8) (Nat.lt_succ_of_lt hr) (by decide)

/-! ## The dispatch pass where it calls a handler -/

theorem bitScan_lowest (flag p : Nat) (hbit : flag.testBit p = true) :
    ∀ (n j pos : Nat), j ≤ p → p < j + n →
      (∀ j2, j ≤ j2 → j2 < p → flag.testBit j2 = false) →
      MCP23S17.bitScan flag n j pos = p := by
  intro n
  induction n with
  | zero => intro j pos h1 h2 _; omega
  | succ n ih =>
    intro j pos h1 h2 hlow
    unfold MCP23S17.bitScan
    by_cases hb : (flag >>> j) &&& 0x01 ≠ 0
    · rw [if_pos hb]
      by_contra hne
      have hj := hlow j (le_refl _) (by omega)
      rw [(shift_and_one_iff flag j).1 hb] at hj
      cases hj
    · rw [if_neg hb]
      have hjp : j ≠ p := by
        intro h
        subst h
        exact hb ((shift_and_one_iff flag j).2 hbit)
      exact ih (j + 1) pos (by omega) (by omega) (fun j2 h3 h4 => hlow j2 (by omega) h4)

theorem uniqueKeys_eq_of_key (l : List expGPIO_t) (hu : UniqueKeys l) (e e2 : expGPIO_t)
    (he : e ∈ l) (he2 : e2 ∈ l) (hport : e.port = e2.port) (hpin : e.pin = e2.pin) :
    e = e2 :=
  List.inj_on_of_nodup_map hu he he2 (by rw [hport, hpin])

theorem dispatch_calls (t : MCP23S17) (i p : Nat) (event : gpio_irq_event) (e : expGPIO_t)
    (f : Nat) (hu : UniqueKeys t.intList) (he : e ∈ t.intList) (hport : e.port = (i : Int))
    (hpin : e.pin = p) (hf : e.func = some f) :
    MCP23S17.dispatch t i p event =
      Except.ok { t with trace := t.trace ++ [Event.call f e.id event] } := by
  have hmem : ((i : Int), p) ∈ keys t.intList := by
    rw [← hport, ← hpin]
    exact List.mem_map_of_mem (fun e => (e.port, e.pin)) he
  have hne : t.intList ≠ [] := by
    intro h
    simp [h, keys] at hmem
  obtain ⟨k, hk⟩ := findFrom_found (i : Int) p t.intList 0 hmem
  have hget := _getExpGPIO_of_ne_nil (i : Int) p _ hne
  rw [hk] at hget
  obtain ⟨e2, hget2, hp2, hq2⟩ := _getExpGPIO_node _ _ _ _ hget
  have heq : e2 = e :=
    uniqueKeys_eq_of_key _ hu e2 e (List.getElem?_mem hget2) he (by rw [hp2, hport])
      (by rw [hq2, hpin])
  subst heq
  unfold MCP23S17.dispatch
  simp only [hget, hget2, hf]
  rfl

/-- One port of a dispatch pass whose flag value has its lowest set bit at a pin `p` other
than 0, below the port width, with a binding for (port, p) in a registry with unique keys:
the pass reads the flag and the data register of the port, calls the callback of the binding
once with its id, and ends there. -/
theorem portLoop_calls_handler (spi : SpiSlave) (i : Nat) (rest : List Nat) (t : MCP23S17)
    (e : expGPIO_t) (f p : Nat) (hu : UniqueKeys t.intList) (he : e ∈ t.intList)
    (hport : e.port = (i : Int)) (hpin : e.pin = p) (hf : e.func = some f)
    (hp0 : p ≠ 0) (hpw : p < t.config.portWidth)
    (hbit : (readValue spi t.trace t.config.opcode ((INTF ||| i) % 256)).testBit p = true)
    (hlow : ∀ j < p,
      (readValue spi t.trace t.config.opcode ((INTF ||| i) % 256)).testBit j = false) :
    MCP23S17.portLoop spi (i :: rest) 0 t =
      Except.ok { t with
        trace := (t.trace ++ readFrame t.config.opcode ((INTF ||| i) % 256)
          ++ readFrame t.config.opcode (( GPIO ||| i) % 256)
          ++ [Event.call f e.id
                (if readValue spi (t.trace ++ readFrame t.config.opcode ((INTF ||| i) % 256))
                      t.config.opcode (( GPIO ||| i) % 256)
                    &&& readValue spi t.trace t.config.opcode ((INTF ||| i) % 256) ≠ 0
                 then IRQ_RISE else IRQ_FALL)]) } := by
  have hflag : readValue spi t.trace t.config.opcode ((INTF ||| i) % 256) ≠ 0 := by
    intro h
    rw [h] at hbit
    simp at hbit
  have hscan := bitScan_lowest _ p hbit t.config.portWidth 0 0 (Nat.zero_le _) (by omega)
    (fun j2 _ h => hlow j2 h)
  unfold MCP23S17.portLoop
  simp only [_read_fst, _read_config, _read_trace, if_pos hflag, hscan, if_pos hp0]
  rw [dispatch_calls _ i p _ e f (by simpa [_read_intList] using hu)
    (by simpa [_read_intList] using he) hport hpin hf]
  simp only [MCP23S17._read_snd, List.append_assoc]

/-- One port of a dispatch pass whose flag value is 0: the pass reads the flag register and
goes on to the next port. -/
theorem portLoop_skips_port (spi : SpiSlave) (i : Nat) (rest : List Nat) (t : MCP23S17)
    (hflag : readValue spi t.trace t.config.opcode ((INTF ||| i) % 256) = 0) :
    MCP23S17.portLoop spi (i :: rest) 0 t =
      MCP23S17.portLoop spi rest 0
        { t with trace := t.trace ++ readFrame t.config.opcode ((INTF ||| i) % 256) } := by
  conv_lhs => unfold MCP23S17.portLoop
  simp only [_read_fst, hflag, ne_eq, not_true_eq_false, if_false, MCP23S17._read_snd]

/-- A dispatch pass on a device with an interrupt line, in which port P is the first port of
A, B with a non-zero flag value, the lowest set bit of that value is a pin `p` other than 0
and below the port width, and a registry with unique keys holds a binding for (P, p) with a
callback: the pass calls that callback exactly once, with the bound id, as its last event. -/
theorem pass_calls_bound_handler (spi : SpiSlave) (s : MCP23S17) (e : expGPIO_t) (f p : Nat)
    (hcfg : s.config.intConfigured = true) (hu : UniqueKeys s.intList) (he : e ∈ s.intList)
    (hpin : e.pin = p) (hf : e.func = some f) (hp0 : p ≠ 0)
    (hpw : p < s.config.portWidth) :
    (e.port = EXPPORT_A →
      (readValue spi s.trace s.config.opcode INTF).testBit p = true →
      (∀ j < p, (readValue spi s.trace s.config.opcode INTF).testBit j = false) →
      ∃ ev, s._interruptControl spi = Except.ok { s with
        trace := (s.trace ++ readFrame s.config.opcode INTF ++ readFrame s.config.opcode GPIO
          ++ [Event.call f e.id ev]) }) ∧
    (e.port = EXPPORT_B →
      readValue spi s.trace s.config.opcode INTF = 0 →
      (readValue spi (s.trace ++ readFrame s.config.opcode INTF) s.config.opcode
        (INTF ||| 1)).testBit p = true →
      (∀ j < p, (readValue spi (s.trace ++ readFrame s.config.opcode INTF) s.config.opcode
        (INTF ||| 1)).testBit j = false) →
      ∃ ev, s._interruptControl spi = Except.ok { s with
        trace := (s.trace ++ readFrame s.config.opcode INTF
          ++ readFrame s.config.opcode (INTF ||| 1) ++ readFrame s.config.opcode ( GPIO ||| 1)
          ++ [Event.call f e.id ev]) }) := by
  have hA : (INTF ||| 0) % 256 = INTF := by decide
  have hB : (INTF ||| 1) % 256 = INTF ||| 1 := by decide
  have gA : ( GPIO ||| 0) % 256 = GPIO := by decide
  have gB : ( GPIO ||| 1) % 256 = GPIO ||| 1 := by decide
  constructor
  · intro hport hbit hlow
    unfold MCP23S17._interruptControl
    rw [if_pos hcfg, passPorts_eq]
    rw [portLoop_calls_handler spi 0 [1] s e f p hu he (by simpa [EXPPORT_A] using hport) hpin hf
      hp0 hpw (by rw [hA]; exact hbit) (by rw [hA]; exact hlow)]
    rw [hA, gA]
    exact ⟨_, rfl⟩
  · intro hport hzero hbit hlow
    unfold MCP23S17._interruptControl
    rw [if_pos hcfg, passPorts_eq, portLoop_skips_port spi 0 [1] s (by rw [hA]; exact hzero)]
    rw [portLoop_calls_handler spi 1 []
      { s with trace := s.trace ++ readFrame s.config.opcode ((INTF ||| 0) % 256) } e f p hu he
      (by simpa [EXPPORT_B] using hport) hpin hf
      hp0 hpw (by rw [hA, hB]; exact hbit) (by rw [hA, hB]; exact hlow)]
    simp only [hA, hB, gB, List.append_assoc]
    exact ⟨_, rfl⟩

/-! ## The dispatch claims -/

/-- C3, at the failing input. Port A's interrupt-flag register reads 0x01 (lowest set bit 0,
port A is the first port with a non-zero flag) and the registry holds a binding for pin 0 of
port A with callback 11: the pass reads INTF and GPIO of port A, calls nothing, and goes on to
read INTF of port B; its trace holds no call event. -/
theorem dispatch_skips_pin_zero :
    readValue (regSlave pinZeroRegs) pinZeroDevice.trace 0x40 INTF = 0x01 ∧
    pinZeroDevice._interruptControl (regSlave pinZeroRegs) =
      Except.ok { pinZeroDevice with
        trace := (pinZeroDevice.trace ++ readFrame 0x40 INTF ++ readFrame 0x40 GPIO
          ++ readFrame 0x40 (INTF ||| 1)) } ∧
    (pinZeroDevice.trace ++ readFrame 0x40 INTF ++ readFrame 0x40 GPIO
      ++ readFrame 0x40 (INTF ||| 1)).filter Event.isCall = [] :=
  ⟨rfl, rfl, rfl⟩

/-- C4, as amended. Whenever a dispatch pass calls a handler, it does so for one port P, after
reading a non-zero flag value for P whose lowest set bit is the handler's pin p, and the
edge-kind passed is IRQ_RISE if and only if the data (GPIO) value read for P has a set bit in
common with the whole flag value (`gpio & flag` is not 0), IRQ_FALL otherwise; when the flag
value has the single bit p set, that is: IRQ_RISE if and only if bit p of the data value is
set. -/
theorem dispatch_edge_kind (spi : SpiSlave) (s s1 : MCP23S17) (f id : Nat)
    (ev : gpio_irq_event) (hrun : s._interruptControl spi = Except.ok s1)
    (hcall : Event.call f id ev ∈ s1.trace.drop s.trace.length) :
    ∃ (i : Nat) (Y : List Event) (flag gpio p : Nat),
      ((i : Int) = EXPPORT_A ∨ (i : Int) = EXPPORT_B) ∧
      flag = readValue spi (s.trace ++ Y) s.config.opcode (INTF ||| i) ∧
      gpio = readValue spi (s.trace ++ Y ++ readFrame s.config.opcode (INTF ||| i))
        s.config.opcode ( GPIO ||| i) ∧
      s1.trace = s.trace ++ Y ++ readFrame s.config.opcode (INTF ||| i)
        ++ readFrame s.config.opcode ( GPIO ||| i) ++ [Event.call f id ev] ∧
      flag ≠ 0 ∧ flag.testBit p = true ∧ (∀ j < p, flag.testBit j = false) ∧
      (∃ e ∈ s.intList, e.port = (i : Int) ∧ e.pin = p ∧ e.func = some f ∧ e.id = id) ∧
      (ev = IRQ_RISE ↔ gpio &&& flag ≠ 0) ∧ (ev = IRQ_FALL ↔ gpio &&& flag = 0) ∧
      (flag = 2 ^ p → (ev = IRQ_RISE ↔ gpio.testBit p = true)) := by
  unfold MCP23S17._interruptControl at hrun
  by_cases hcfg : s.config.intConfigured = true
  · rw [if_pos hcfg, passPorts_eq] at hrun
    obtain ⟨_, _, hcase⟩ := portLoop_outcome spi _ _ _ hrun
    rcases hcase with ⟨X, hX, hno⟩ |
      ⟨i, hi, Y, hY, flag, gpio, p, e, he, f2, h1, h2, h3, h4, h5, h6, h7, h8, h9⟩
    · rw [hX, List.drop_left] at hcall
      exact absurd hcall (hno f id ev)
    · have hi2 : i = 0 ∨ i = 1 := by simpa using hi
      rw [port_address_mod INTF i (by decide) hi2] at h1 h2 h9
      rw [port_address_mod GPIO i (by decide) hi2] at h2 h9
      rw [h9] at hcall
      simp only [List.append_assoc, List.drop_left, List.mem_append, List.mem_singleton] at hcall
      have hev : Event.call f id ev =
          Event.call f2 e.id (if gpio &&& flag ≠ 0 then IRQ_RISE else IRQ_FALL) := by
        rcases hcall with hc | hc | hc | hc
        · exact absurd hc (hY f id ev)
        · exact absurd hc (call_not_mem_readFrame _ _ _ _ _)
        · exact absurd hc (call_not_mem_readFrame _ _ _ _ _)
        · exact hc
      simp only [Event.call.injEq] at hev
      obtain ⟨hf, hid, hevk⟩ := hev
      have hfound := bitScan_found flag s.config.portWidth 0 0 (by rw [← h3]; exact h5)
      rw [← h3] at hfound
      refine ⟨i, Y, flag, gpio, p, ?_, h1, h2, ?_, h4, hfound.1,
        fun j hj => hfound.2.2.2 j (Nat.zero_le _) hj,
        ⟨e, he, h6, h7, by rw [h8, hf], hid.symm⟩, ?_, ?_, ?_⟩
      · rcases hi2 with h | h <;> subst h
        · exact Or.inl rfl
        · exact Or.inr rfl
      · rw [h9, hf, hid, hevk]
      · rw [hevk]
        by_cases hg : gpio &&& flag = 0 <;> simp [hg]
      · rw [hevk]
        by_cases hg : gpio &&& flag = 0 <;> simp [hg]
      · intro hpow
        rw [hevk, ← and_two_pow_ne_zero_iff, ← hpow]
        by_cases hg : gpio &&& flag = 0 <;> simp [hg]
  · rw [if_neg hcfg] at hrun
    simp only [Except.ok.injEq] at hrun
    rw [← hrun] at hcall
    simp at hcall

/-- C4, witness: the pass of `edgeDevice` over `edgeRegs`, which calls callback 11. -/
theorem dispatch_edge_kind_witness :
    (edgeDevice._interruptControl (regSlave edgeRegs) = Except.ok edgeResult ∧
     Event.call 11 101 IRQ_RISE ∈ edgeResult.trace.drop edgeDevice.trace.length) ∧
    ∃ (i : Nat) (Y : List Event) (flag gpio p : Nat),
      ((i : Int) = EXPPORT_A ∨ (i : Int) = EXPPORT_B) ∧
      flag = readValue (regSlave edgeRegs) (edgeDevice.trace ++ Y) edgeDevice.config.opcode
        (INTF ||| i) ∧
      gpio = readValue (regSlave edgeRegs)
        (edgeDevice.trace ++ Y ++ readFrame edgeDevice.config.opcode (INTF ||| i))
        edgeDevice.config.opcode ( GPIO ||| i) ∧
      edgeResult.trace = edgeDevice.trace ++ Y
        ++ readFrame edgeDevice.config.opcode (INTF ||| i)
        ++ readFrame edgeDevice.config.opcode ( GPIO ||| i) ++ [Event.call 11 101 IRQ_RISE] ∧
      flag ≠ 0 ∧ flag.testBit p = true ∧ (∀ j < p, flag.testBit j = false) ∧
      (∃ e ∈ edgeDevice.intList,
        e.port = (i : Int) ∧ e.pin = p ∧ e.func = some 11 ∧ e.id = 101) ∧
      (IRQ_RISE = IRQ_RISE ↔ gpio &&& flag ≠ 0) ∧ (IRQ_RISE = IRQ_FALL ↔ gpio &&& flag = 0) ∧
      (flag = 2 ^ p → (IRQ_RISE = IRQ_RISE ↔ gpio.testBit p = true)) :=
  ⟨⟨rfl, by decide⟩,
   dispatch_edge_kind (regSlave edgeRegs) edgeDevice edgeResult 11 101 IRQ_RISE rfl (by decide)⟩

/-- C4, counterexample. Port A's flag register reads 0x0A (bits 1 and 3, lowest set bit 1)
and its data register reads 0x08 (bit 1 clear, bit 3 set): the pass calls the handler bound
to pin 1 of port A with IRQ_RISE although bit 1 of the data value is not set. -/
theorem dispatch_edge_kind_counterexample :
    readValue (regSlave edgeRegs) edgeDevice.trace 0x40 INTF = 0x0A ∧
    readValue (regSlave edgeRegs) (edgeDevice.trace ++ readFrame 0x40 INTF) 0x40 GPIO = 0x08 ∧
    MCP23S17.bitScan 0x0A edgeDevice.config.portWidth 0 0 = 1 ∧
    edgeDevice._interruptControl (regSlave edgeRegs) =
      Except.ok { edgeDevice with
        trace := (edgeDevice.trace ++ readFrame 0x40 INTF ++ readFrame 0x40 GPIO
          ++ [Event.call 11 101 IRQ_RISE]) } ∧
    Nat.testBit 0x08 1 = false ∧
    ¬ (IRQ_RISE = IRQ_RISE ↔ Nat.testBit 0x08 1 = true) :=
  ⟨rfl, rfl, rfl, rfl, rfl, by decide⟩

/-! ## Teardown -/

theorem construct_intConfigured (writeOpcode : Nat) (interrupt : PinName) (pw : ExpPortWidth) :
    (MCP23S17.construct writeOpcode interrupt pw).config.intConfigured =
      decide (interrupt ≠ NC) ∧
    (MCP23S17.construct writeOpcode interrupt pw).config.interrupt = interrupt := by
  unfold MCP23S17.construct MCP23S17._init
  by_cases h : interrupt = -1
  · subst h
    simp [MCP23S17._enableCallback, MCP23S17._write, MCP23S17.log, NC]
  · simp [MCP23S17._enableCallback, MCP23S17._write, MCP23S17.log, NC, h]

/-- C10, as amended. The teardown `_deinit` always writes 0xFF (all inputs) to IODIR of port A
and of port B and then runs `_enableCallback(false)`; only when the device holds
`intConfigured` (the constructor sets it exactly when an interrupt line was given) does it go
on to write 0 to INTCON, DEFVAL and GPINTEN of port A and then of port B, each group inside
its own `_enableCallback(false)` / `_enableCallback(true)`; without an interrupt line no
interrupt register is written. All of this precedes the stop signal `_threadrunning = false`
and the join of the monitor thread, which end the trace; nothing else of the device changes. -/
theorem deinit_trace (s : MCP23S17) :
    s._deinit =
      { s with
        threadrunning := false
        trace := (s.trace
          ++ writeFrame s.config.opcode IODIR 0xFF
          ++ writeFrame s.config.opcode (IODIR ||| 1) 0xFF
          ++ callbackEvents s.config.interrupt false
          ++ (if s.config.intConfigured = true then
                callbackEvents s.config.interrupt false
                ++ writeFrame s.config.opcode INTCON 0
                ++ writeFrame s.config.opcode DEFVAL 0
                ++ writeFrame s.config.opcode GPINTEN 0
                ++ callbackEvents s.config.interrupt true
                ++ callbackEvents s.config.interrupt false
                ++ writeFrame s.config.opcode (INTCON ||| 1) 0
                ++ writeFrame s.config.opcode (DEFVAL ||| 1) 0
                ++ writeFrame s.config.opcode (GPINTEN ||| 1) 0
                ++ callbackEvents s.config.interrupt true
              else [])
          ++ [Event.storeThreadrunning false, Event.threadJoin]) } ∧
    ∀ (writeOpcode : Nat) (interrupt : PinName) (pw : ExpPortWidth),
      (MCP23S17.construct writeOpcode interrupt pw).config.intConfigured =
        decide (interrupt ≠ NC) := by
  refine ⟨?_, fun o i w => (construct_intConfigured o i w).1⟩
  have hA : toChar EXPPORT_A = 0 := by decide
  have hB : toChar EXPPORT_B = 1 := by decide
  have hFF : toChar 0xFF = 0xFF := by decide
  have h0 : toChar 0 = 0 := by decide
  have hd : ¬ ((0xFF : Int) > 0xFF) := by decide
  have hz : ¬ ((0 : Int) > 0xFF ∨ (0 : Int) > 0xFF ∨ (0 : Int) > 0xFF) := by decide
  unfold MCP23S17._deinit
  by_cases hc : s.config.intConfigured = true
  · simp only [MCP23S17.setDirection, MCP23S17.setInterruptEnable, if_neg hd, if_neg hz,
      MCP23S17._write_eq, MCP23S17._enableCallback_eq, MCP23S17.log, hA, hB, hFF, h0, hc,
      if_true]
    simp [IODIR, INTCON, DEFVAL, GPINTEN]
  · simp only [MCP23S17.setDirection, MCP23S17.setInterruptEnable, if_neg hd,
      MCP23S17._write_eq, MCP23S17._enableCallback_eq, MCP23S17.log, hA, hB, hFF, hc]
    simp [IODIR]

/-- C10, counterexample. On a device constructed without an interrupt line the teardown
writes 0xFF to IODIR of both ports, signals the monitor thread to stop and joins it; its
trace holds no write transaction to GPINTEN of port A or of port B: the byte of neither
address is ever sent. -/
theorem deinit_without_interrupt_line :
    sampleDeviceNC.config.interrupt = NC ∧
    sampleDeviceNC._deinit.trace =
      sampleDeviceNC.trace ++ writeFrame 0x40 IODIR 0xFF ++ writeFrame 0x40 (IODIR ||| 1) 0xFF
        ++ [Event.storeThreadrunning false, Event.threadJoin] ∧
    ¬ (writeFrame 0x40 GPINTEN 0 <:+: sampleDeviceNC._deinit.trace) ∧
    ¬ (writeFrame 0x40 (GPINTEN ||| 1) 0 <:+: sampleDeviceNC._deinit.trace) ∧
    Event.spiWrite GPINTEN ∉ sampleDeviceNC._deinit.trace ∧
    Event.spiWrite (GPINTEN ||| 1) ∉ sampleDeviceNC._deinit.trace := by
  refine ⟨rfl, rfl, ?_, ?_, ?_, ?_⟩ <;> decide

/-! ## Argument checks -/

theorem toChar_eq_iff (m : Int) : (toChar m : Int) = m ↔ 0 ≤ m ∧ m ≤ 255 := by
  unfold toChar
  omega

theorem xor_toChar_mod (a b : Int) : (toChar a ^^^ toChar b) % 256 = toChar a ^^^ toChar b :=
  Nat.mod_eq_of_lt (Nat.xor_lt_two_pow (n := 8) (toChar_lt a) (toChar_lt b))

theorem callbackAttached_append_intRise (tr : List Event) (b : Bool) :
    callbackAttached (tr ++ [Event.intRise b]) = some b := by
  simp [callbackAttached, List.foldl_append]

theorem callbackAttached_append_writeFrame (tr : List Event) (opcode address data : Nat) :
    callbackAttached (tr ++ writeFrame opcode address data) = callbackAttached tr := by
  simp [callbackAttached, List.foldl_append, writeFrame]

/-- C13. For every port and mask and every mode other than PullUp, setConfigureMode returns
ExpError_MASK and leaves the device, trace included, as it was, and getConfigureMode returns
ExpError_MASK, leaves the device as it was and leaves `*data` as it was; for mode PullUp and a
mask in 0..255, setConfigureMode returns ExpError_OK and adds to the trace exactly one write
transaction, of the mask to GPPU|port. -/
theorem configure_mode_checks (spi : SpiSlave) (s : MCP23S17) (port : ExpPortName)
    (mode : PinMode) (mask data : Int) (n : Nat) :
    (mode ≠ PullUp →
      s.setConfigureMode port mode mask = (ExpError_MASK, s) ∧
      s.getConfigureMode spi port mode data = (ExpError_MASK, data, s)) ∧
    (n ≤ 255 →
      s.setConfigureMode port PullUp n =
        (ExpError_OK,
          { s with trace := s.trace ++ writeFrame s.config.opcode (GPPU ||| toChar port) n })) := by
  constructor
  · intro hmode
    exact ⟨by simp [MCP23S17.setConfigureMode, hmode], by simp [MCP23S17.getConfigureMode, hmode]⟩
  · intro hn
    have h1 : ¬ ((n : Int) > 0xFF ∨ PullUp ≠ PullUp) := by
      norm_num
      omega
    unfold MCP23S17.setConfigureMode
    rw [if_neg h1, MCP23S17._write_eq, toChar_natCast n hn, lor_toChar_mod GPPU (by decide) port]

/-- C13, witness: mode PullDown, and mode PullUp with mask 0x3C, on port B of the sample
device. -/
theorem configure_mode_checks_witness :
    (sampleDevice.setConfigureMode EXPPORT_B PullDown 0x3C = (ExpError_MASK, sampleDevice) ∧
     sampleDevice.getConfigureMode (regSlave edgeRegs) EXPPORT_B PullDown 77 =
       (ExpError_MASK, 77, sampleDevice)) ∧
    sampleDevice.setConfigureMode EXPPORT_B PullUp (0x3C : Nat) =
      (ExpError_OK,
        { sampleDevice with
          trace := sampleDevice.trace ++ writeFrame sampleDevice.config.opcode
            (GPPU ||| toChar EXPPORT_B) 0x3C }) :=
  ⟨(configure_mode_checks (regSlave edgeRegs) sampleDevice EXPPORT_B PullDown 0x3C 77 0x3C).1
      (by decide),
   (configure_mode_checks (regSlave edgeRegs) sampleDevice EXPPORT_B PullDown 0x3C 77 0x3C).2
      (by decide)⟩

/-- C14. On a device with an interrupt line, a setInterruptEnable call that returns
ExpError_OK adds to the trace exactly: `_int.rise(NULL)` (callback disabled), the write
transactions to INTCON, DEFVAL and GPINTEN, `_int.rise(callback)` (callback re-enabled); the
callback is detached when each of the three transactions starts and attached again at the end.
A call that returns ExpError_MASK leaves the device, trace included, as it was; and the call
returns one of the two codes. -/
theorem setInterruptEnable_masks_callback (s : MCP23S17) (port : ExpPortName)
    (en rise fall : Int) (hline : s.config.interrupt ≠ NC) :
    ((s.setInterruptEnable port en rise fall).1 = ExpError_OK →
      (s.setInterruptEnable port en rise fall).2 =
        { s with trace := (s.trace ++ [Event.intRise false]
            ++ writeFrame s.config.opcode (INTCON ||| toChar port) (toChar rise ^^^ toChar fall)
            ++ writeFrame s.config.opcode (DEFVAL ||| toChar port) (toChar fall)
            ++ writeFrame s.config.opcode (GPINTEN ||| toChar port) (toChar en)
            ++ [Event.intRise true]) } ∧
      callbackAttached (s.trace ++ [Event.intRise false]) = some false ∧
      callbackAttached (s.trace ++ [Event.intRise false]
        ++ writeFrame s.config.opcode (INTCON ||| toChar port) (toChar rise ^^^ toChar fall))
        = some false ∧
      callbackAttached (s.trace ++ [Event.intRise false]
        ++ writeFrame s.config.opcode (INTCON ||| toChar port) (toChar rise ^^^ toChar fall)
        ++ writeFrame s.config.opcode (DEFVAL ||| toChar port) (toChar fall)) = some false ∧
      callbackAttached (s.setInterruptEnable port en rise fall).2.trace = some true) ∧
    ((s.setInterruptEnable port en rise fall).1 = ExpError_MASK →
      (s.setInterruptEnable port en rise fall).2 = s) ∧
    ((s.setInterruptEnable port en rise fall).1 = ExpError_OK ∨
      (s.setInterruptEnable port en rise fall).1 = ExpError_MASK) := by
  have hcb : ∀ b, callbackEvents s.config.interrupt b = [Event.intRise b] := by
    intro b
    have h2 : s.config.interrupt ≠ -1 := hline
    unfold callbackEvents
    rw [if_pos h2]
  by_cases hm : en > 0xFF ∨ rise > 0xFF ∨ fall > 0xFF
  · have hres : s.setInterruptEnable port en rise fall = (ExpError_MASK, s) := by
      unfold MCP23S17.setInterruptEnable
      rw [if_pos hm]
    rw [hres]
    refine ⟨?_, ?_, Or.inr rfl⟩
    · intro h
      cases h
    · intro _
      rfl
  · have hres : s.setInterruptEnable port en rise fall =
        (ExpError_OK,
          { s with trace := (s.trace ++ [Event.intRise false]
            ++ writeFrame s.config.opcode (INTCON ||| toChar port) (toChar rise ^^^ toChar fall)
            ++ writeFrame s.config.opcode (DEFVAL ||| toChar port) (toChar fall)
            ++ writeFrame s.config.opcode (GPINTEN ||| toChar port) (toChar en)
            ++ [Event.intRise true]) }) := by
      unfold MCP23S17.setInterruptEnable
      rw [if_neg hm]
      simp only [MCP23S17._write_eq, MCP23S17._enableCallback_eq, hcb, xor_toChar_mod,
        lor_toChar_mod INTCON (by decide) port, lor_toChar_mod DEFVAL (by decide) port,
        lor_toChar_mod GPINTEN (by decide) port, List.append_assoc]
    rw [hres]
    refine ⟨fun _ => ⟨rfl, ?_, ?_, ?_, ?_⟩, ?_, Or.inl rfl⟩
    rotate_right
    · intro h
      cases h
    · exact callbackAttached_append_intRise _ _
    · rw [callbackAttached_append_writeFrame, callbackAttached_append_intRise]
    · rw [callbackAttached_append_writeFrame, callbackAttached_append_writeFrame,
        callbackAttached_append_intRise]
    · exact callbackAttached_append_intRise _ _

/-- C14, witness: the sample device (interrupt line on pin 5), port A, masks 0x0F, 0x05,
0x0C. -/
theorem setInterruptEnable_masks_callback_witness :
    (sampleDevice.setInterruptEnable EXPPORT_A 0x0F 0x05 0x0C).1 = ExpError_OK ∧
    (sampleDevice.setInterruptEnable EXPPORT_A 0x0F 0x05 0x0C).2.trace =
      sampleDevice.trace ++ [Event.intRise false] ++ writeFrame 0x40 INTCON 0x09
        ++ writeFrame 0x40 DEFVAL 0x0C ++ writeFrame 0x40 GPINTEN 0x0F ++ [Event.intRise true] ∧
    callbackAttached (sampleDevice.setInterruptEnable EXPPORT_A 0x0F 0x05 0x0C).2.trace =
      some true ∧
    ((sampleDevice.setInterruptEnable EXPPORT_A 0x100 0x05 0x0C).1 = ExpError_MASK →
      (sampleDevice.setInterruptEnable EXPPORT_A 0x100 0x05 0x0C).2 = sampleDevice) :=
  ⟨rfl, rfl,
   ((setInterruptEnable_masks_callback sampleDevice EXPPORT_A 0x0F 0x05 0x0C (by decide)).1
      rfl).2.2.2.2,
   (setInterruptEnable_masks_callback sampleDevice EXPPORT_A 0x100 0x05 0x0C (by decide)).2.1⟩

/-- C18, as amended. setDirection, setConfigureMode with mode PullUp, write and
setInterruptEnable return ExpError_OK for an int mask argument m exactly when m is at most
255 (for setInterruptEnable, when each of its three masks is), and the data byte then placed
on the bus is `(char)m`, the low 8 bits of m (for the INTCON write of setInterruptEnable, the
XOR of the two bytes); that byte equals m itself exactly when 0 <= m <= 255. No lower bound
is tested: every negative mask is accepted by each of the four operations, and the byte
written for it is not the mask. -/
theorem accepted_mask_bytes (s : MCP23S17) (port : ExpPortName) (m : Int) :
    ((s.setDirection port m).1 = ExpError_OK ↔ m ≤ 255) ∧
    (m ≤ 255 → (s.setDirection port m).2 =
      { s with trace := (s.trace ++
          writeFrame s.config.opcode (IODIR ||| toChar port) (toChar m)) }) ∧
    (∀ mode : PinMode,
      (s.setConfigureMode port mode m).1 = ExpError_OK ↔ m ≤ 255 ∧ mode = PullUp) ∧
    (m ≤ 255 → (s.setConfigureMode port PullUp m).2 =
      { s with trace := (s.trace ++
          writeFrame s.config.opcode (GPPU ||| toChar port) (toChar m)) }) ∧
    ((s.write port m).1 = ExpError_OK ↔ m ≤ 255) ∧
    (m ≤ 255 → (s.write port m).2 =
      { s with trace := (s.trace ++
          writeFrame s.config.opcode (OLAT ||| toChar port) (toChar m)) }) ∧
    (∀ rise fall : Int,
      (s.setInterruptEnable port m rise fall).1 = ExpError_OK ↔
        m ≤ 255 ∧ rise ≤ 255 ∧ fall ≤ 255) ∧
    (∀ rise fall : Int, m ≤ 255 → rise ≤ 255 → fall ≤ 255 →
      (s.setInterruptEnable port m rise fall).2 =
        { s with trace := (s.trace ++ callbackEvents s.config.interrupt false
            ++ writeFrame s.config.opcode (INTCON ||| toChar port) (toChar rise ^^^ toChar fall)
            ++ writeFrame s.config.opcode (DEFVAL ||| toChar port) (toChar fall)
            ++ writeFrame s.config.opcode (GPINTEN ||| toChar port) (toChar m)
            ++ callbackEvents s.config.interrupt true) }) ∧
    (toChar m : Int) = m % 256 ∧
    ((toChar m : Int) = m ↔ 0 ≤ m ∧ m ≤ 255) ∧
    (m < 0 →
      (s.setDirection port m).1 = ExpError_OK ∧
      (s.setConfigureMode port PullUp m).1 = ExpError_OK ∧
      (s.write port m).1 = ExpError_OK ∧
      (s.setInterruptEnable port m m m).1 = ExpError_OK ∧
      (toChar m : Int) ≠ m) := by
  have hdir : (s.setDirection port m).1 = ExpError_OK ↔ m ≤ 255 := by
    unfold MCP23S17.setDirection
    by_cases h : m > 0xFF
    · rw [if_pos h]
      exact ⟨fun hc => (by cases hc), fun hle => absurd h (not_lt.2 hle)⟩
    · rw [if_neg h]
      exact ⟨fun _ => not_lt.1 h, fun _ => rfl⟩
  have hcfg : ∀ mode : PinMode,
      (s.setConfigureMode port mode m).1 = ExpError_OK ↔ m ≤ 255 ∧ mode = PullUp := by
    intro mode
    unfold MCP23S17.setConfigureMode
    by_cases h : m > 0xFF ∨ mode ≠ PullUp
    · rw [if_pos h]
      refine ⟨fun hc => (by cases hc), fun hle => ?_⟩
      rcases h with h | h
      · exact absurd h (not_lt.2 hle.1)
      · exact absurd hle.2 h
    · rw [if_neg h]
      rw [not_or, not_not] at h
      exact ⟨fun _ => ⟨not_lt.1 h.1, h.2⟩, fun _ => rfl⟩
  have hwr : (s.write port m).1 = ExpError_OK ↔ m ≤ 255 := by
    unfold MCP23S17.write
    by_cases h : m > 0xFF
    · rw [if_pos h]
      exact ⟨fun hc => (by cases hc), fun hle => absurd h (not_lt.2 hle)⟩
    · rw [if_neg h]
      exact ⟨fun _ => not_lt.1 h, fun _ => rfl⟩
  have hint : ∀ rise fall : Int,
      (s.setInterruptEnable port m rise fall).1 = ExpError_OK ↔
        m ≤ 255 ∧ rise ≤ 255 ∧ fall ≤ 255 := by
    intro rise fall
    unfold MCP23S17.setInterruptEnable
    by_cases h : m > 0xFF ∨ rise > 0xFF ∨ fall > 0xFF
    · rw [if_pos h]
      refine ⟨fun hc => (by cases hc), fun hle => ?_⟩
      rcases h with h | h | h
      · exact absurd h (not_lt.2 hle.1)
      · exact absurd h (not_lt.2 hle.2.1)
      · exact absurd h (not_lt.2 hle.2.2)
    · rw [if_neg h]
      rw [not_or, not_or] at h
      exact ⟨fun _ => ⟨not_lt.1 h.1, not_lt.1 h.2.1, not_lt.1 h.2.2⟩, fun _ => rfl⟩
  refine ⟨hdir, ?_, hcfg, ?_, hwr, ?_, hint, ?_, ?_, toChar_eq_iff m, ?_⟩
  · intro hle
    have h : ¬ (m > 0xFF) := not_lt.2 hle
    unfold MCP23S17.setDirection
    rw [if_neg h, MCP23S17._write_eq, lor_toChar_mod IODIR (by decide) port]
  · intro hle
    have h : ¬ (m > 0xFF ∨ PullUp ≠ PullUp) := by
      simp only [ne_eq, not_true_eq_false, or_false]
      exact not_lt.2 hle
    unfold MCP23S17.setConfigureMode
    rw [if_neg h, MCP23S17._write_eq, lor_toChar_mod GPPU (by decide) port]
  · intro hle
    have h : ¬ (m > 0xFF) := not_lt.2 hle
    unfold MCP23S17.write
    rw [if_neg h, MCP23S17._write_eq, lor_toChar_mod OLAT (by decide) port]
  · intro rise fall h1 h2 h3
    have h : ¬ (m > 0xFF ∨ rise > 0xFF ∨ fall > 0xFF) := by
      rw [not_or, not_or]
      exact ⟨not_lt.2 h1, not_lt.2 h2, not_lt.2 h3⟩
    unfold MCP23S17.setInterruptEnable
    rw [if_neg h]
    simp only [MCP23S17._write_eq, MCP23S17._enableCallback_eq, xor_toChar_mod,
      lor_toChar_mod INTCON (by decide) port, lor_toChar_mod DEFVAL (by decide) port,
      lor_toChar_mod GPINTEN (by decide) port, List.append_assoc]
  · unfold toChar
    omega
  · intro hneg
    have hle : m ≤ 255 := le_of_lt (lt_trans hneg (by norm_num))
    refine ⟨hdir.2 hle, (hcfg PullUp).2 ⟨hle, rfl⟩, hwr.2 hle, (hint m m).2 ⟨hle, hle, hle⟩, ?_⟩
    intro heq
    have := ((toChar_eq_iff m).1 heq).1
    exact absurd this (not_le.2 hneg)

/-- C18, witness: mask 0xA5 and mask -1 on port A of the sample device. -/
theorem accepted_mask_bytes_witness :
    (sampleDevice.setDirection EXPPORT_A 0xA5).2 =
      { sampleDevice with trace := (sampleDevice.trace ++
          writeFrame sampleDevice.config.opcode (IODIR ||| toChar EXPPORT_A) (toChar 0xA5)) } ∧
    ((sampleDevice.setDirection EXPPORT_A (-1)).1 = ExpError_OK ∧
     (sampleDevice.setConfigureMode EXPPORT_A PullUp (-1)).1 = ExpError_OK ∧
     (sampleDevice.write EXPPORT_A (-1)).1 = ExpError_OK ∧
     (sampleDevice.setInterruptEnable EXPPORT_A (-1) (-1) (-1)).1 = ExpError_OK ∧
     (toChar (-1) : Int) ≠ -1) :=
  ⟨(accepted_mask_bytes sampleDevice EXPPORT_A 0xA5).2.1 (by decide),
   (accepted_mask_bytes sampleDevice EXPPORT_A (-1)).2.2.2.2.2.2.2.2.2.2 (by decide)⟩

/-- C18, counterexample. setDirection(EXPPORT_A, -1) returns ExpError_OK and places the data
byte 0xFF on the bus, and write(EXPPORT_B, -256) returns ExpError_OK and places the data byte
0: a negative mask is accepted and the byte written is not the mask. -/
theorem negative_mask_accepted :
    sampleDevice.setDirection EXPPORT_A (-1) =
      (ExpError_OK,
        { sampleDevice with trace := sampleDevice.trace ++ writeFrame 0x40 IODIR 0xFF }) ∧
    sampleDevice.write EXPPORT_B (-256) =
      (ExpError_OK,
        { sampleDevice with trace := sampleDevice.trace ++ writeFrame 0x40 (OLAT ||| 1) 0 }) ∧
    ((0xFF : Nat) : Int) ≠ -1 ∧ ((0 : Nat) : Int) ≠ -256 :=
  ⟨rfl, rfl, by decide, by decide⟩

/-! ## The lookup on an empty registry -/

theorem construct_intList (writeOpcode : Nat) (interrupt : PinName) (pw : ExpPortWidth) :
    (MCP23S17.construct writeOpcode interrupt pw).intList = [] := by
  unfold MCP23S17.construct MCP23S17._init
  by_cases h : interrupt = -1
  · subst h
    simp [MCP23S17._enableCallback, MCP23S17._write, MCP23S17.log]
  · simp [MCP23S17._enableCallback, MCP23S17._write, MCP23S17.log, h]

/-- C17, at the failing input. On a freshly constructed instance, whatever its opcode,
interrupt pin and port width, the registry is empty and the lookup `_getExpGPIO(port, pin)`
returns the iterator it never assigned, not `_intList.end()`: isAttached(port, pin) does not
return false (nor true), and attach with valid arguments has no result instead of inserting a
binding. -/
theorem lookup_on_fresh_instance (writeOpcode : Nat) (interrupt : PinName) (pw : ExpPortWidth)
    (port : ExpPortName) (pin : ExpPinName) (func : Callback) (id : Nat) :
    (MCP23S17.construct writeOpcode interrupt pw).intList = [] ∧
    MCP23S17._getExpGPIO (MCP23S17.construct writeOpcode interrupt pw).intList port pin =
      ListIter.singular ∧
    MCP23S17._getExpGPIO (MCP23S17.construct writeOpcode interrupt pw).intList port pin ≠
      ListIter.endIt ∧
    (∀ b : Bool,
      (MCP23S17.construct writeOpcode interrupt pw).isAttached port pin ≠ Except.ok b) ∧
    (MCP23S17.validArgs port pin →
      (MCP23S17.construct writeOpcode interrupt pw).isAttached port pin =
        Except.error Fault.undefinedBehaviour ∧
      (MCP23S17.construct writeOpcode interrupt pw).attach port pin func id =
        Except.error Fault.undefinedBehaviour) := by
  have hl := construct_intList writeOpcode interrupt pw
  have hs : MCP23S17._getExpGPIO (MCP23S17.construct writeOpcode interrupt pw).intList port pin
      = ListIter.singular := by
    rw [hl]
    rfl
  refine ⟨hl, hs, by rw [hs]; simp, ?_, ?_⟩
  · intro b
    unfold MCP23S17.isAttached
    by_cases hv : MCP23S17.validArgs port pin
    · rw [if_neg (not_not.2 hv), hs]
      simp
    · rw [if_pos hv]
      simp
  · intro hv
    constructor
    · unfold MCP23S17.isAttached
      rw [if_neg (not_not.2 hv), hs]
    · unfold MCP23S17.attach
      rw [if_neg (not_not.2 hv), hs]

/-! ## Frame of the registry operations -/

theorem filter_assignAt (port : ExpPortName) (pin : ExpPinName) (id : Nat) (func : Callback) :
    ∀ (l : List expGPIO_t) (i k : Nat), MCP23S17.findFrom port pin l i = ListIter.node k →
      (MCP23S17.assignAt id func l (k - i)).filter
          (fun e => decide (¬ (e.port = port ∧ e.pin = pin))) =
        l.filter (fun e => decide (¬ (e.port = port ∧ e.pin = pin))) := by
  intro l
  induction l with
  | nil => intro i k h; simp [MCP23S17.findFrom] at h
  | cons e rest ih =>
    intro i k h
    unfold MCP23S17.findFrom at h
    by_cases hm : e.pin = pin ∧ e.port = port
    · rw [if_pos hm] at h
      cases h
      simp [MCP23S17.assignAt, hm.1, hm.2]
    · rw [if_neg hm] at h
      have hle := (findFrom_node port pin rest (i + 1) k h).1
      have hk : k - i = (k - (i + 1)) + 1 := by omega
      rw [hk]
      simp only [MCP23S17.assignAt, List.filter_cons]
      rw [ih (i + 1) k h]

theorem filter_eraseFirst (port : ExpPortName) (pin : ExpPinName) :
    ∀ l : List expGPIO_t,
      (MCP23S17.eraseFirst port pin l).filter
          (fun e => decide (¬ (e.port = port ∧ e.pin = pin))) =
        l.filter (fun e => decide (¬ (e.port = port ∧ e.pin = pin))) := by
  intro l
  induction l with
  | nil => simp [MCP23S17.eraseFirst]
  | cons e rest ih =>
    unfold MCP23S17.eraseFirst
    by_cases hm : e.pin = pin ∧ e.port = port
    · rw [if_pos hm]
      simp [hm.1, hm.2]
    · rw [if_neg hm]
      simp only [List.filter_cons]
      rw [ih]

theorem eraseFirst_perm (port : ExpPortName) (pin : ExpPinName) :
    ∀ l : List expGPIO_t, (port, pin) ∈ keys l →
      ∃ e, e.port = port ∧ e.pin = pin ∧ l.Perm (e :: MCP23S17.eraseFirst port pin l) := by
  intro l
  induction l with
  | nil => intro h; simp [keys] at h
  | cons a rest ih =>
    intro h
    unfold MCP23S17.eraseFirst
    by_cases hm : a.pin = pin ∧ a.port = port
    · rw [if_pos hm]
      exact ⟨a, hm.2, hm.1, List.Perm.refl _⟩
    · rw [if_neg hm]
      have hrest : (port, pin) ∈ keys rest := by
        simp only [keys, List.map_cons, List.mem_cons] at h
        rcases h with h | h
        · cases h
          exact absurd ⟨rfl, rfl⟩ hm
        · exact h
      obtain ⟨e, hp, hq, hperm⟩ := ih hrest
      exact ⟨e, hp, hq, (hperm.cons a).trans (List.Perm.swap e a _)⟩

/-- Frame of the registry where its calls have a result: when attach(port, pin, callback, id)
returns ExpError_OK, the bindings of every other (port, pin) are the same as before, with the
same callbacks and ids and in the same order; when detach(port, pin) returns ExpError_OK, the
same holds and the registry has lost exactly one binding, one of (port, pin). Neither changes
anything of the device but the registry. On an empty registry neither call has a result. -/
theorem registry_frame (s s2 : MCP23S17) (port : ExpPortName) (pin : ExpPinName)
    (func : Callback) (id : Nat) :
    (s.attach port pin func id = Except.ok (ExpError_OK, s2) →
      s2.intList.filter (fun e => decide (¬ (e.port = port ∧ e.pin = pin))) =
        s.intList.filter (fun e => decide (¬ (e.port = port ∧ e.pin = pin))) ∧
      s2 = { s with intList := s2.intList }) ∧
    (s.detach port pin = Except.ok (ExpError_OK, s2) →
      s2.intList.filter (fun e => decide (¬ (e.port = port ∧ e.pin = pin))) =
        s.intList.filter (fun e => decide (¬ (e.port = port ∧ e.pin = pin))) ∧
      s2.intList.length + 1 = s.intList.length ∧
      (∃ e, e.port = port ∧ e.pin = pin ∧ s.intList.Perm (e :: s2.intList)) ∧
      s2 = { s with intList := s2.intList }) := by
  constructor
  · intro h
    unfold MCP23S17.attach at h
    by_cases hv : MCP23S17.validArgs port pin
    · rw [if_neg (not_not.2 hv)] at h
      by_cases hne : s.intList = []
      · simp [hne, MCP23S17._getExpGPIO] at h
      · rw [_getExpGPIO_of_ne_nil port pin _ hne] at h
        cases hf : MCP23S17.findFrom port pin s.intList 0 with
        | singular => exact absurd hf (findFrom_ne_singular port pin _ 0)
        | node k =>
          rw [hf] at h
          simp only [Except.ok.injEq, Prod.mk.injEq, true_and] at h
          subst h
          exact ⟨filter_assignAt port pin id func s.intList 0 k hf, rfl⟩
        | endIt =>
          rw [hf] at h
          simp only [Except.ok.injEq, Prod.mk.injEq, true_and] at h
          subst h
          refine ⟨?_, rfl⟩
          simp [List.filter_append]
    · rw [if_pos hv] at h
      simp at h
  · intro h
    unfold MCP23S17.detach at h
    by_cases hv : MCP23S17.validArgs port pin
    · rw [if_neg (not_not.2 hv)] at h
      by_cases hne : s.intList = []
      · simp [hne, MCP23S17.isAttached, MCP23S17._getExpGPIO, hv] at h
      · rw [isAttached_of_nonempty s port pin hv hne] at h
        by_cases hb : (port, pin) ∈ keys s.intList
        · simp only [hb, decide_True, Except.ok.injEq, Prod.mk.injEq, true_and] at h
          subst h
          obtain ⟨e, hp, hq, hperm⟩ := eraseFirst_perm port pin s.intList hb
          refine ⟨filter_eraseFirst port pin s.intList, ?_, ⟨e, hp, hq, hperm⟩, rfl⟩
          have := hperm.length_eq
          simp only [List.length_cons] at this
          exact this.symm
        · simp [hb] at h
    · rw [if_pos hv] at h
      simp at h

/-- C20, at the failing input. On a freshly constructed device the registry is empty and the
lookup returns the iterator it never assigned: detach(EXPPORT_B, 0) compares it with `end()`
in isAttached and has no defined result, so it is not a call that removes exactly one binding,
and attach(EXPPORT_B, 0, callback, id) has none either. -/
theorem detach_on_fresh_device_removes_nothing :
    sampleDeviceNC.intList = [] ∧
    MCP23S17._getExpGPIO sampleDeviceNC.intList EXPPORT_B 0 = ListIter.singular ∧
    sampleDeviceNC.isAttached EXPPORT_B 0 = Except.error Fault.undefinedBehaviour ∧
    sampleDeviceNC.detach EXPPORT_B 0 = Except.error Fault.undefinedBehaviour ∧
    sampleDeviceNC.attach EXPPORT_B 0 (some 1) 7 = Except.error Fault.undefinedBehaviour :=
  ⟨rfl, rfl, rfl, rfl, rfl⟩

/-! ## Order of getInterruptEnable -/

/-- The three values getInterruptEnable stores, for every SPI slave: `data[0]` is what INTCON
of the port reads, `data[1]` what DEFVAL reads and `data[2]` what GPINTEN reads. -/
theorem getInterruptEnable_reads (spi : SpiSlave) (s : MCP23S17) (port : ExpPortName) :
    (s.getInterruptEnable spi port).1 = ExpError_OK ∧
    (s.getInterruptEnable spi port).2.1 =
      (((readValue spi (s.trace ++ callbackEvents s.config.interrupt false) s.config.opcode
          (INTCON ||| toChar port) : Nat) : Int),
       ((readValue spi (s.trace ++ callbackEvents s.config.interrupt false
          ++ readFrame s.config.opcode (INTCON ||| toChar port)) s.config.opcode
          (DEFVAL ||| toChar port) : Nat) : Int),
       ((readValue spi (s.trace ++ callbackEvents s.config.interrupt false
          ++ readFrame s.config.opcode (INTCON ||| toChar port)
          ++ readFrame s.config.opcode (DEFVAL ||| toChar port)) s.config.opcode
          (GPINTEN ||| toChar port) : Nat) : Int)) := by
  unfold MCP23S17.getInterruptEnable
  simp only [_read_fst, _read_config, _read_trace, MCP23S17._enableCallback_eq,
    lor_toChar_mod INTCON (by decide) port, lor_toChar_mod DEFVAL (by decide) port,
    lor_toChar_mod GPINTEN (by decide) port, and_self]

/-- C15, at the failing input. On the chip that returns on read what was last written,
setInterruptEnable(EXPPORT_A, en = 0x0F, rise = 0x05, fall = 0x0C) returns ExpError_OK and
the getInterruptEnable(EXPPORT_A, data) that follows stores data[0] = 0x09 (INTCON,
rise XOR fall), data[1] = 0x0C (DEFVAL, fall) and data[2] = 0x0F (GPINTEN, en): data[0] is not
en and data[2] is not fall. -/
theorem getInterruptEnable_order :
    (sampleDevice.setInterruptEnable EXPPORT_A 0x0F 0x05 0x0C).1 = ExpError_OK ∧
    (MCP23S17.getInterruptEnable chipSlave
        (sampleDevice.setInterruptEnable EXPPORT_A 0x0F 0x05 0x0C).2 EXPPORT_A).1 =
      ExpError_OK ∧
    (MCP23S17.getInterruptEnable chipSlave
        (sampleDevice.setInterruptEnable EXPPORT_A 0x0F 0x05 0x0C).2 EXPPORT_A).2.1 =
      (0x09, 0x0C, 0x0F) ∧
    (0x09 : Int) ≠ 0x0F ∧ (0x0F : Int) ≠ 0x0C :=
  ⟨rfl, rfl, rfl, by decide, by decide⟩

/-! ## Bit 0 in the dispatch pass -/

theorem bitScan_bit_zero (flag : Nat) (h : flag.testBit 0 = true) (n : Nat) :
    MCP23S17.bitScan flag n 0 0 = 0 := by
  cases n with
  | zero => rfl
  | succ n =>
    unfold MCP23S17.bitScan
    rw [if_pos ((shift_and_one_iff flag 0).2 h)]

/-- One port of a dispatch pass whose flag value has bit 0 set: the pass reads the flag and
the data register of the port, calls nothing and goes on to the next port. -/
theorem portLoop_bit_zero (spi : SpiSlave) (i : Nat) (rest : List Nat) (t : MCP23S17)
    (hbit : (readValue spi t.trace t.config.opcode ((INTF ||| i) % 256)).testBit 0 = true) :
    MCP23S17.portLoop spi (i :: rest) 0 t =
      MCP23S17.portLoop spi rest 0
        { t with trace := (t.trace ++ readFrame t.config.opcode ((INTF ||| i) % 256)
            ++ readFrame t.config.opcode (( GPIO ||| i) % 256)) } := by
  have hflag : readValue spi t.trace t.config.opcode ((INTF ||| i) % 256) ≠ 0 := by
    intro h
    rw [h] at hbit
    simp at hbit
  conv_lhs => unfold MCP23S17.portLoop
  simp only [_read_fst, _read_config, _read_trace, if_pos hflag,
    bitScan_bit_zero _ hbit, ne_eq, not_true_eq_false, if_false, MCP23S17._read_snd]

/-- Every call of a dispatch pass is made for a binding of the registry whose pin is not 0. -/
theorem pass_call_origin (spi : SpiSlave) (s s1 : MCP23S17) (f id : Nat) (ev : gpio_irq_event)
    (hrun : s._interruptControl spi = Except.ok s1)
    (hcall : Event.call f id ev ∈ s1.trace.drop s.trace.length) :
    ∃ e ∈ s.intList, e.func = some f ∧ e.id = id ∧ e.pin ≠ 0 := by
  unfold MCP23S17._interruptControl at hrun
  by_cases hcfg : s.config.intConfigured = true
  · rw [if_pos hcfg, passPorts_eq] at hrun
    obtain ⟨_, _, hcase⟩ := portLoop_outcome spi _ _ _ hrun
    rcases hcase with ⟨X, hX, hno⟩ |
      ⟨i, _, Y, hY, flag, gpio, p, e, he, f2, _, _, _, _, h5, _, h7, h8, h9⟩
    · rw [hX, List.drop_left] at hcall
      exact absurd hcall (hno f id ev)
    · rw [h9] at hcall
      simp only [List.append_assoc, List.drop_left, List.mem_append, List.mem_singleton] at hcall
      have hev : Event.call f id ev =
          Event.call f2 e.id (if gpio &&& flag ≠ 0 then IRQ_RISE else IRQ_FALL) := by
        rcases hcall with hc | hc | hc | hc
        · exact absurd hc (hY f id ev)
        · exact absurd hc (call_not_mem_readFrame _ _ _ _ _)
        · exact absurd hc (call_not_mem_readFrame _ _ _ _ _)
        · exact hc
      simp only [Event.call.injEq] at hev
      refine ⟨e, he, by rw [h8, hev.1], hev.2.1.symm, ?_⟩
      rw [h7]
      exact h5
  · rw [if_neg hcfg] at hrun
    simp only [Except.ok.injEq] at hrun
    rw [← hrun] at hcall
    simp at hcall

/-- C16. In a dispatch pass a flag on bit 0 is read but never dispatched. On a device with an
interrupt line, when the flag value of port A has bit 0 set (its lowest set bit is then bit
0), the pass reads INTF and GPIO of port A, calls nothing for port A and goes on to examine
port B; when the flag value of port B has bit 0 set, the pass reads INTF and GPIO of port B
and ends without a call; and a callback that is bound to pin 0 only is called by no dispatch
pass. -/
theorem bit_zero_never_dispatched (spi : SpiSlave) (s : MCP23S17) :
    (s.config.intConfigured = true →
      (readValue spi s.trace s.config.opcode INTF).testBit 0 = true →
      s._interruptControl spi =
        MCP23S17.portLoop spi [1] 0
          { s with trace := (s.trace ++ readFrame s.config.opcode INTF
              ++ readFrame s.config.opcode GPIO) }) ∧
    (∀ t : MCP23S17,
      (readValue spi t.trace t.config.opcode (INTF ||| 1)).testBit 0 = true →
      MCP23S17.portLoop spi [1] 0 t =
        Except.ok { t with trace := (t.trace ++ readFrame t.config.opcode (INTF ||| 1)
            ++ readFrame t.config.opcode ( GPIO ||| 1)) }) ∧
    (∀ (s1 : MCP23S17) (f : Nat), s._interruptControl spi = Except.ok s1 →
      (∀ e ∈ s.intList, e.func = some f → e.pin = 0) →
      ∀ id ev, Event.call f id ev ∉ s1.trace.drop s.trace.length) := by
  have hA : (INTF ||| 0) % 256 = INTF := by decide
  have hB : (INTF ||| 1) % 256 = INTF ||| 1 := by decide
  have gA : ( GPIO ||| 0) % 256 = GPIO := by decide
  have gB : ( GPIO ||| 1) % 256 = GPIO ||| 1 := by decide
  refine ⟨?_, ?_, ?_⟩
  · intro hcfg hbit
    unfold MCP23S17._interruptControl
    rw [if_pos hcfg, passPorts_eq, portLoop_bit_zero spi 0 [1] s (by rw [hA]; exact hbit), hA, gA]
  · intro t hbit
    rw [portLoop_bit_zero spi 1 [] t (by rw [hB]; exact hbit), hB, gB]
    rfl
  · intro s1 f hrun honly id ev hcall
    obtain ⟨e, he, hf, _, hpin⟩ := pass_call_origin spi s s1 f id ev hrun hcall
    exact hpin (honly e he hf)

/-- C16, witness: the pass of `pinZeroDevice` over `pinZeroRegs`, where port A's flag reads
0x01 and callback 11 is bound to pin 0 of port A only. -/
theorem bit_zero_never_dispatched_witness :
    pinZeroDevice._interruptControl (regSlave pinZeroRegs) =
      MCP23S17.portLoop (regSlave pinZeroRegs) [1] 0
        { pinZeroDevice with trace := (pinZeroDevice.trace
            ++ readFrame pinZeroDevice.config.opcode INTF
            ++ readFrame pinZeroDevice.config.opcode GPIO) } ∧
    ∀ (s1 : MCP23S17), pinZeroDevice._interruptControl (regSlave pinZeroRegs) = Except.ok s1 →
      ∀ id ev, Event.call 11 id ev ∉ s1.trace.drop pinZeroDevice.trace.length :=
  ⟨(bit_zero_never_dispatched (regSlave pinZeroRegs) pinZeroDevice).1 rfl rfl,
   fun s1 hrun =>
    (bit_zero_never_dispatched (regSlave pinZeroRegs) pinZeroDevice).2.2 s1 11 hrun
      (by decide)⟩

/-- C12, at the failing input. Port A's flag register reads 0x01 and port B's reads 0x08,
with a binding for pin 3 of port B: after reading INTF and GPIO of port A the pass goes on to
read INTF and GPIO of port B and calls the handler of pin 3 of port B. -/
theorem pass_reads_port_B_after_port_A_flag :
    readValue (regSlave twoPortRegs) twoPortDevice.trace 0x40 INTF = 0x01 ∧
    twoPortDevice._interruptControl (regSlave twoPortRegs) =
      Except.ok { twoPortDevice with
        trace := (twoPortDevice.trace ++ readFrame 0x40 INTF ++ readFrame 0x40 GPIO
          ++ readFrame 0x40 (INTF ||| 1) ++ readFrame 0x40 ( GPIO ||| 1)
          ++ [Event.call 12 102 IRQ_RISE]) } :=
  ⟨rfl, rfl⟩

/-- When the flag value of port A is not 0 and its scan ends at a pin other than 0, a pass
that has a result reads INTF and GPIO of port A, makes at most one call, and reads no
register of port B. -/
theorem pass_stops_at_port_A (spi : SpiSlave) (s s1 : MCP23S17)
    (hcfg : s.config.intConfigured = true)
    (hflag : readValue spi s.trace s.config.opcode INTF ≠ 0)
    (hpos : MCP23S17.bitScan (readValue spi s.trace s.config.opcode INTF)
      s.config.portWidth 0 0 ≠ 0)
    (hrun : s._interruptControl spi = Except.ok s1) :
    ∃ X, s1.trace = s.trace ++ readFrame s.config.opcode INTF
        ++ readFrame s.config.opcode GPIO ++ X ∧
      (X = [] ∨ ∃ f id ev, X = [Event.call f id ev]) := by
  have hA : (INTF ||| 0) % 256 = INTF := by decide
  have gA : ( GPIO ||| 0) % 256 = GPIO := by decide
  unfold MCP23S17._interruptControl at hrun
  rw [if_pos hcfg, passPorts_eq] at hrun
  unfold MCP23S17.portLoop at hrun
  simp only [_read_fst, _read_config, _read_trace, hA, gA, if_pos hflag, if_pos hpos] at hrun
  rcases dispatch_outcome _ _ _ _ _ hrun with h | ⟨e, _, f, _, _, _, h⟩
  · refine ⟨[], ?_, Or.inl rfl⟩
    rw [h]
    simp only [_read_trace, _read_config, hA, gA, List.append_nil]
  · rw [h]
    simp only [_read_trace, _read_config, hA, gA]
    exact ⟨_, rfl, Or.inr ⟨_, _, _, rfl⟩⟩

/-! ## The callback after teardown -/

/-- On a device with an interrupt line that holds `intConfigured`, the last `_int.rise` of the
teardown is the one that attaches the callback again, at the end of
setInterruptEnable(EXPPORT_B, 0, 0, 0). -/
theorem callbackAttached_deinit (s : MCP23S17) (hline : s.config.interrupt ≠ NC)
    (hcfg : s.config.intConfigured = true) :
    callbackAttached s._deinit.trace = some true := by
  have h2 : s.config.interrupt ≠ -1 := hline
  have hd : ¬ ((0xFF : Int) > 0xFF) := by decide
  have hz : ¬ ((0 : Int) > 0xFF ∨ (0 : Int) > 0xFF ∨ (0 : Int) > 0xFF) := by decide
  unfold MCP23S17._deinit
  simp only [MCP23S17.setDirection, MCP23S17.setInterruptEnable, if_neg hd, if_neg hz,
    MCP23S17._write_eq, MCP23S17._enableCallback_eq, MCP23S17.log, hcfg, if_true]
  simp [callbackAttached, List.foldl_append, writeFrame, callbackEvents, h2]

/-- On a device without an interrupt line the teardown never touches the callback. -/
theorem callbackAttached_deinit_no_line (s : MCP23S17) (hline : s.config.interrupt = NC) :
    callbackAttached s._deinit.trace = callbackAttached s.trace := by
  have h2 : s.config.interrupt = -1 := hline
  have hd : ¬ ((0xFF : Int) > 0xFF) := by decide
  have hz : ¬ ((0 : Int) > 0xFF ∨ (0 : Int) > 0xFF ∨ (0 : Int) > 0xFF) := by decide
  unfold MCP23S17._deinit
  by_cases hcfg : s.config.intConfigured = true
  · simp only [MCP23S17.setDirection, MCP23S17.setInterruptEnable, if_neg hd, if_neg hz,
      MCP23S17._write_eq, MCP23S17._enableCallback_eq, MCP23S17.log, hcfg, if_true]
    simp [callbackAttached, List.foldl_append, writeFrame, callbackEvents, h2]
  · simp only [MCP23S17.setDirection, MCP23S17.setInterruptEnable, if_neg hd,
      MCP23S17._write_eq, MCP23S17._enableCallback_eq, MCP23S17.log, hcfg]
    simp [callbackAttached, List.foldl_append, writeFrame, callbackEvents, h2]

/-- C19, at the failing input. On the sample device (interrupt line on pin 5) the teardown
detaches the callback after its two direction writes, and the `_enableCallback(true)` that
ends each of its setInterruptEnable calls attaches it again: when `_deinit` is over the
callback is attached, the last three events being `_int.rise(callback)`, the stop signal and
the join. -/
theorem deinit_leaves_callback_attached :
    sampleDevice.config.interrupt = 5 ∧
    callbackAttached (sampleDevice._deinit.trace.take (sampleDevice.trace.length + 15)) =
      some false ∧
    callbackAttached sampleDevice._deinit.trace = some true ∧
    sampleDevice._deinit.trace.reverse.take 3 =
      [Event.threadJoin, Event.storeThreadrunning false, Event.intRise true] :=
  ⟨rfl, rfl, rfl, rfl⟩

/-! ## getInterruptEnable after setInterruptEnable on the chip that keeps what was written -/

theorem foldl_chipStep_writeFrame (st : List Nat × (Nat → Nat)) (opcode address data : Nat)
    (hop : opcode % 2 = 0) :
    (writeFrame opcode address data).foldl chipStep st =
      ([], Function.update st.2 address data) := by
  simp [writeFrame, chipStep, hop]

theorem foldl_chipStep_readFrame (st : List Nat × (Nat → Nat)) (opcode address : Nat) :
    (readFrame opcode address).foldl chipStep st = ([], st.2) := by
  have hodd : (opcode ||| 1) % 2 = 1 := Nat.or_mod_two_eq_one.2 (Or.inr rfl)
  simp [readFrame, chipStep, hodd]

theorem foldl_chipStep_callbackEvents (st : List Nat × (Nat → Nat)) (interrupt : PinName)
    (b : Bool) : (callbackEvents interrupt b).foldl chipStep st = st := by
  unfold callbackEvents
  split <;> simp [chipStep]

theorem chipRegs_append_writeFrame (tr : List Event) (opcode address data : Nat)
    (hop : opcode % 2 = 0) :
    chipRegs (tr ++ writeFrame opcode address data) =
      Function.update (chipRegs tr) address data := by
  simp [chipRegs, List.foldl_append, foldl_chipStep_writeFrame _ _ _ _ hop]

theorem chipRegs_append_readFrame (tr : List Event) (opcode address : Nat) :
    chipRegs (tr ++ readFrame opcode address) = chipRegs tr := by
  simp [chipRegs, List.foldl_append, foldl_chipStep_readFrame]

theorem chipRegs_append_callbackEvents (tr : List Event) (interrupt : PinName) (b : Bool) :
    chipRegs (tr ++ callbackEvents interrupt b) = chipRegs tr := by
  simp [chipRegs, List.foldl_append, foldl_chipStep_callbackEvents]

/-- What a read transaction returns from the chip that keeps what was written: the content
of the register addressed, as a `char`. -/
theorem readValue_chipSlave (tr : List Event) (opcode address : Nat) :
    readValue chipSlave tr opcode address = chipRegs tr address % 256 := by
  have hodd : (opcode ||| 1) % 2 = 1 := Nat.or_mod_two_eq_one.2 (Or.inr rfl)
  simp [readValue, chipSlave, hodd, chipRegs, List.foldl_append, chipStep]

/-- On the chip that keeps what was written, with an even write opcode, a valid port and
masks in 0..255: after setInterruptEnable(port, en, rise, fall), getInterruptEnable(port,
data) stores data[0] = rise XOR fall, data[1] = fall and data[2] = en. -/
theorem getInterruptEnable_after_set (s : MCP23S17) (port : ExpPortName) (en rise fall : Nat)
    (hen : en ≤ 255) (hrise : rise ≤ 255) (hfall : fall ≤ 255)
    (hop : s.config.opcode % 2 = 0) (hport : port = EXPPORT_A ∨ port = EXPPORT_B) :
    (s.setInterruptEnable port en rise fall).1 = ExpError_OK ∧
    (MCP23S17.getInterruptEnable chipSlave (s.setInterruptEnable port en rise fall).2 port).2.1 =
      (((rise ^^^ fall : Nat) : Int), ((fall : Nat) : Int), ((en : Nat) : Int)) := by
  have h1 : ¬ ((en : Int) > 0xFF ∨ (rise : Int) > 0xFF ∨ (fall : Int) > 0xFF) := by
    norm_num
    omega
  have hset : s.setInterruptEnable port en rise fall =
      (ExpError_OK,
        { s with trace := (s.trace ++ callbackEvents s.config.interrupt false
            ++ writeFrame s.config.opcode (INTCON ||| toChar port) (rise ^^^ fall)
            ++ writeFrame s.config.opcode (DEFVAL ||| toChar port) fall
            ++ writeFrame s.config.opcode (GPINTEN ||| toChar port) en
            ++ callbackEvents s.config.interrupt true) }) := by
    unfold MCP23S17.setInterruptEnable
    rw [if_neg h1]
    simp only [MCP23S17._write_eq, MCP23S17._enableCallback_eq, toChar_natCast _ hen,
      toChar_natCast _ hrise, toChar_natCast _ hfall, xor_byte_mod _ _ hrise hfall,
      lor_toChar_mod INTCON (by decide) port, lor_toChar_mod DEFVAL (by decide) port,
      lor_toChar_mod GPINTEN (by decide) port, List.append_assoc]
  have hx : (rise ^^^ fall) % 256 = rise ^^^ fall := xor_byte_mod _ _ hrise hfall
  have hf : fall % 256 = fall := Nat.mod_eq_of_lt (by omega)
  have he : en % 256 = en := Nat.mod_eq_of_lt (by omega)
  rw [hset]
  refine ⟨rfl, ?_⟩
  rw [(getInterruptEnable_reads chipSlave _ port).2]
  simp only [readValue_chipSlave, chipRegs_append_readFrame, chipRegs_append_callbackEvents,
    chipRegs_append_writeFrame _ _ _ _ hop]
  rcases hport with h | h <;> subst h <;>
    simp [Function.update, toChar, EXPPORT_A, EXPPORT_B, INTCON, DEFVAL, GPINTEN, hx, hf, he]
